import Mathlib

/-!
Shallow embedding of the download-orchestration pipeline of the
Rust_Downloader repository, together with proofs of the specification
claims about it.

Conventions used throughout:
* Rust `String`/`&str` values are Lean `String`; all computations on them
  are defined over `List Char` (`String.data`) with structural recursion so
  that every definition is executable and kernel-reducible.
* Rust machine integers (`u32`, `u64`, `i32`) are `Nat`/`Int`; where the
  source's bounded width matters (string parsing with overflow checks) the
  bound `2 ^ 32` is made explicit.
* Rust `f32` progress fractions only ever take the literal values
  0.0, 0.1, 0.3, 0.6, 0.8, 0.9, 0.95, 1.0 and the single computed value
  0.3 + 1.0 * 0.3 = 0.6 (exact in f32); they are represented exactly as
  hundredths (`Nat`: 0, 10, 30, 60, 80, 90, 95, 100), which preserves
  equality and order.
* Fallible Rust functions returning `Result` become `Except String`;
  external effects (network, subprocesses, the file system) are supplied by
  explicit oracle records so that the orchestrator's control flow is a pure
  function of the oracle.
-/

/-! ## Generic string helpers (List Char models of Rust str operations) -/

/-- ASCII lowercase of a character list; models Rust `str::to_lowercase`
(which is Unicode; the two agree on ASCII, and all keyword tests in the
source are ASCII). -/
def toLowerChars (l : List Char) : List Char :=
  l.map Char.toLower

/-- Does `hay` contain `needle` as a contiguous substring?  Models Rust
`str::contains` for a literal pattern. -/
def listContainsSub (hay needle : List Char) : Bool :=
  needle.isPrefixOf hay ||
    match hay with
    | [] => false
    | _ :: t => listContainsSub t needle

/-- Helper for `countOccur`: `skip` characters remain to be consumed from
a separator match already counted. -/
def countOccurAux (sep : List Char) : Nat → List Char → Nat
  | _, [] => 0
  | skip + 1, _ :: t => countOccurAux sep skip t
  | 0, c :: t =>
    if sep.isPrefixOf (c :: t) then 1 + countOccurAux sep (sep.length - 1) t
    else countOccurAux sep 0 t

/-- Number of non-overlapping left-to-right occurrences of (non-empty)
`sep` in `l`; Rust `l.split(sep).count() = countOccur sep l + 1`. -/
def countOccur (sep l : List Char) : Nat :=
  countOccurAux sep 0 l

/-- Matches `:\d\d:\d\d` at the head of the list. -/
def matchColon2 : List Char → Bool
  | ':' :: a :: b :: ':' :: c :: d :: _ =>
    a.isDigit && b.isDigit && c.isDigit && d.isDigit
  | _ => false

/-- Matches the regex `\d{1,2}:\d{2}:\d{2}` anchored at the head. -/
def tsMatchAt : List Char → Bool
  | a :: rest =>
    a.isDigit &&
      (matchColon2 rest ||
        match rest with
        | b :: rest2 => b.isDigit && matchColon2 rest2
        | [] => false)
  | [] => false

/-- Unanchored search for the regex `\d{1,2}:\d{2}:\d{2}`; models
`Regex::new(r"\d{1,2}:\d{2}:\d{2}").is_match(...)` in the source. -/
def hasTsPattern : List Char → Bool
  | [] => false
  | c :: t => tsMatchAt (c :: t) || hasTsPattern t

/-- Rust `char::is_whitespace`: the Unicode `White_Space` property. -/
def rustIsWhitespace (c : Char) : Bool :=
  c.toNat = 0x09 || c.toNat = 0x0A || c.toNat = 0x0B || c.toNat = 0x0C ||
  c.toNat = 0x0D || c.toNat = 0x20 || c.toNat = 0x85 || c.toNat = 0xA0 ||
  c.toNat = 0x1680 || (0x2000 ≤ c.toNat && c.toNat ≤ 0x200A) ||
  c.toNat = 0x2028 || c.toNat = 0x2029 || c.toNat = 0x202F ||
  c.toNat = 0x205F || c.toNat = 0x3000

/-- Drop leading Rust whitespace. -/
def dropLeadingWs : List Char → List Char
  | [] => []
  | c :: t => if rustIsWhitespace c then dropLeadingWs t else c :: t

/-- Rust `str::trim` on a character list: drop leading whitespace, then
drop trailing whitespace via a reversal. -/
def rustTrim (l : List Char) : List Char :=
  (dropLeadingWs (dropLeadingWs l).reverse).reverse

/-- Split on a single character, keeping every segment (Rust
`str::split(c)` for a char pattern). -/
def splitChar (sep : Char) : List Char → List (List Char)
  | [] => [[]]
  | c :: t =>
    if c = sep then [] :: splitChar sep t
    else
      match splitChar sep t with
      | s :: rest => (c :: s) :: rest
      | [] => [[c]]

/-- Strip one trailing carriage return, as Rust `str::lines` does. -/
def stripCr (l : List Char) : List Char :=
  match l.reverse with
  | '\r' :: t => t.reverse
  | _ => l

/-- Rust `str::lines`: split on `\n`, drop the segment after a trailing
newline (so the final line terminator is optional), strip one trailing
`\r` per line. -/
def rustLines (l : List Char) : List (List Char) :=
  let parts := splitChar '\n' l
  let parts := if parts.getLast? = some [] then parts.dropLast else parts
  parts.map stripCr

/-- Fuel-driven digit expansion; correct whenever `n ≤ fuel`. -/
def natDigitsAux : Nat → Nat → List Char
  | 0, n => [Char.ofNat (48 + n % 10)]
  | fuel + 1, n =>
    if n < 10 then [Char.ofNat (48 + n)]
    else natDigitsAux fuel (n / 10) ++ [Char.ofNat (48 + n % 10)]

/-- Decimal digits of a natural number, most significant first. -/
def natDigits (n : Nat) : List Char :=
  natDigitsAux n n

/-- Decimal representation of an integer (Rust `format!` with `{}`). -/
def intDigits (i : Int) : List Char :=
  if i < 0 then '-' :: natDigits i.natAbs else natDigits i.natAbs

/-- Rust `format!("{:02}", n)`: pad the decimal form to width 2 with a
leading zero. -/
def fmt2 (n : Nat) : List Char :=
  if n < 10 then '0' :: natDigits n else natDigits n

/-- Fold a digit list into a value with the `u32` overflow check Rust's
`str::parse::<u32>` performs at every step. -/
def parseU32Digits : List Char → Nat → Option Nat
  | [], acc => some acc
  | c :: t, acc =>
    if c.isDigit then
      let v := 10 * acc + (c.toNat - 48)
      if v < 4294967296 then parseU32Digits t v else none
    else none

/-- Rust `str::parse::<u32>`: an optional leading `+`, then at least one
digit, overflow-checked against `u32::MAX`. -/
def rustParseU32 (l : List Char) : Option Nat :=
  let l2 := match l with
    | c :: rest => if c = '+' then rest else c :: rest
    | [] => []
  match l2 with
  | [] => none
  | _ => parseU32Digits l2 0

/-- Rust `str::parse::<i32>`: optional sign, digits, bound-checked. -/
def rustParseI32 (l : List Char) : Option Int :=
  match l with
  | '-' :: rest =>
    match rustParseU32 ('+' :: rest) with
    | some n => if n ≤ 2147483648 then some (-(n : Int)) else none
    | none => none
  | other =>
    match rustParseU32 other with
    | some n => if n ≤ 2147483647 then some (n : Int) else none
    | none => none

/-- Helper for `replaceSub`: `skip` characters of an already-replaced
separator match remain to be consumed. -/
def replaceSubAux (pat rep : List Char) : Nat → List Char → List Char
  | _, [] => []
  | skip + 1, _ :: t => replaceSubAux pat rep skip t
  | 0, c :: t =>
    if pat.isPrefixOf (c :: t) then
      rep ++ replaceSubAux pat rep (pat.length - 1) t
    else
      c :: replaceSubAux pat rep 0 t

/-- Replace every occurrence of (non-empty) `pat` by `rep`, left to right,
not rescanning replacements; models Rust `str::replace`. -/
def replaceSub (pat rep l : List Char) : List Char :=
  replaceSubAux pat rep 0 l

/-! ## Core data model (src/downloader/mod.rs, src/config.rs) -/

/-- Target audio container format (`config::AudioFormat`). -/
inductive AudioFormat
  | Mp3 | M4a | Flac | Wav
deriving DecidableEq, Repr

/-- Target bitrate tier (`config::Bitrate`). -/
inductive Bitrate
  | Kbps128 | Kbps192 | Kbps256 | Kbps320
deriving DecidableEq, Repr

/-- `Bitrate::as_u32`. -/
def Bitrate.as_u32 : Bitrate → Nat
  | .Kbps128 => 128
  | .Kbps192 => 192
  | .Kbps256 => 256
  | .Kbps320 => 320

/-- Download lifecycle stage (`downloader::DownloadStage`). -/
inductive DownloadStage
  | Queued | FetchingMetadata | SearchingSource | DownloadingAudio
  | ConvertingAudio | DownloadingCover | DownloadingLyrics
  | EmbeddingMetadata | Completed | Error
deriving DecidableEq, Repr

/-- Track metadata record (`downloader::TrackMetadata`); the fields the
pipeline reads.  `external_urls` is carried as an association list. -/
structure TrackMetadata where
  id : String
  title : String
  artist : String
  album : String
  album_artist : Option String
  track_number : Option Nat
  disc_number : Option Nat
  release_date : Option String
  duration_ms : Nat
  genres : List String
  spotify_url : String
  preview_url : Option String
  external_urls : List (String × String)
  album_cover_url : Option String
  composer : Option String
  comment : Option String
deriving DecidableEq, Repr

/-- Batch download options (`downloader::DownloadOptions`).  `output_dir`
is carried as its string form. -/
structure DownloadOptions where
  format : AudioFormat
  bitrate : Bitrate
  output_dir : String
  download_lyrics : Bool
  download_cover : Bool
  embed_metadata : Bool
  cover_width : Nat
  cover_height : Nat
  cover_format : String
  embed_title : Bool
  embed_artist : Bool
  embed_album : Bool
  embed_year : Bool
  embed_genre : Bool
  embed_track_number : Bool
  embed_disc_number : Bool
  embed_album_artist : Bool
  embed_composer : Bool
  embed_comment : Bool
deriving DecidableEq, Repr

/-- One progress event (`downloader::DownloadProgress`); `progress` is the
f32 fraction in exact hundredths. -/
structure DownloadProgress where
  track_id : String
  stage : DownloadStage
  progress : Nat
  message : String
deriving DecidableEq, Repr

/-! ## Source search engine (src/downloader/youtube.rs) -/

/-- One search candidate (`youtube::SearchResult`). -/
structure SearchResult where
  title : String
  url : String
  duration : Option Nat
  uploader : Option String
  view_count : Nat
  platform : String
  thumbnail : Option String
deriving DecidableEq, Repr

/-- Keyword list of `YoutubeDownloader::is_track`. -/
def non_track_keywords : List String :=
  ["album", "mixtape", "ep", "compilation", "collection", "playlist",
   "full album", "complete album", "deluxe", "extended", "remastered",
   "live album", "studio album", "best of", "greatest hits",
   "soundtrack", "score", "instrumental", "acoustic", "unplugged",
   "remix album", "dubstep", "house", "techno", "trance", "drum and bass",
   "mix", "mashup", "mash-up", "bootleg", "unofficial", "full mix",
   "continuous mix", "dj mix", "radio show", "podcast", "interview"]

/-- The `" - "` separator of the triple-dash album pattern. -/
def dashSep : List Char := [' ', '-', ' ']

/-- `YoutubeDownloader::is_track`: reject titles that look like albums,
mixes, etc. -/
def is_track (title : String) : Bool :=
  let tl := toLowerChars title.data
  if non_track_keywords.any (fun kw => listContainsSub tl kw.data) then false
  else if listContainsSub tl dashSep && countOccur dashSep tl + 1 > 2 then false
  else if hasTsPattern tl then false
  else true

/-- `YoutubeDownloader::is_valid_duration`: between 1:01 and 16:00, and
unknown durations are allowed. -/
def is_valid_duration : Option Nat → Bool
  | some dur => 61 ≤ dur && dur ≤ 960
  | none => true

/-- The filtering step of `search_optimized` (and of the legacy `search`):
keep a candidate exactly when both filters pass. -/
def filter_results (l : List SearchResult) : List SearchResult :=
  l.filter fun r => is_track r.title && is_valid_duration r.duration

/-- Descending stable sort by view count (`sort_by(|a, b|
b.view_count.cmp(&a.view_count))`). -/
def sort_by_views (l : List SearchResult) : List SearchResult :=
  l.mergeSort fun a b => decide (b.view_count ≤ a.view_count)

/-- One search tier of the escalation strategy. -/
inductive Tier
  | yt1 | yt5 | sc1 | sc5
deriving DecidableEq, Repr

/-- Outcomes of the four possible platform searches for one query
(`search_youtube` with 1 and 5, `search_soundcloud` with 1 and 5). -/
structure SearchBackend where
  yt1 : Except String (List SearchResult)
  yt5 : Except String (List SearchResult)
  sc1 : Except String (List SearchResult)
  sc5 : Except String (List SearchResult)

/-- Result list of an `if let Ok(...)` append; errors contribute nothing. -/
def okResults (r : Except String (List SearchResult)) : List SearchResult :=
  match r with
  | .ok l => l
  | .error _ => []

/-- `YoutubeDownloader::search_optimized`, instrumented with the list of
tiers actually invoked.  Each tier after the first runs only when
`all_results` is still empty. -/
def search_optimized (b : SearchBackend) :
    List SearchResult × List Tier :=
  let all1 := okResults b.yt1
  let calls1 := [Tier.yt1]
  let (all2, calls2) :=
    if all1.isEmpty then (all1 ++ okResults b.yt5, calls1 ++ [Tier.yt5])
    else (all1, calls1)
  let (all3, calls3) :=
    if all2.isEmpty then (all2 ++ okResults b.sc1, calls2 ++ [Tier.sc1])
    else (all2, calls2)
  let (all4, calls4) :=
    if all3.isEmpty then (all3 ++ okResults b.sc5, calls3 ++ [Tier.sc5])
    else (all3, calls3)
  (sort_by_views (filter_results all4), calls4)

/-! ## Audio converter (src/downloader/converter.rs) -/

/-- The facts `AudioConverter::needs_conversion` reads from a `PathBuf`:
whether the file exists on disk, and its extension. -/
structure PathFacts where
  onDisk : Bool
  ext : Option String
deriving DecidableEq, Repr

/-- Extension string of each target format, as in `needs_conversion`. -/
def target_ext : AudioFormat → String
  | .Mp3 => "mp3"
  | .M4a => "m4a"
  | .Flac => "flac"
  | .Wav => "wav"

/-- `AudioConverter::needs_conversion`: false for a missing input file;
otherwise true exactly when the lowercased input extension differs from
the target extension.  The bitrate argument is never consulted. -/
def needs_conversion (p : PathFacts) (format : AudioFormat)
    (_bitrate : Bitrate) : Bool :=
  if !p.onDisk then false
  else
    let input_ext := String.mk (toLowerChars (p.ext.getD "").data)
    if input_ext ≠ target_ext format then true
    else false

/-! ## Lyrics data model and LRC format (src/lyrics/lyrics.rs) -/

/-- One timed lyric line (`lyrics::LyricsLine`); `timestamp` is a `u32`
count of milliseconds. -/
structure LyricsLine where
  timestamp : Nat
  text : String
deriving DecidableEq, Repr

/-- Synced lyrics (`lyrics::SyncedLyrics`); `offset` is an `i32`. -/
structure SyncedLyrics where
  lines : List LyricsLine
  offset : Int
  source : String
deriving DecidableEq, Repr

/-- Plain-text lyrics (`lyrics::UnsyncedLyrics`). -/
structure UnsyncedLyrics where
  text : String
  source : String
deriving DecidableEq, Repr

/-- Combined lyrics result (`lyrics::LyricsResult`); paths carried as
strings. -/
structure LyricsResult where
  synced : Option SyncedLyrics
  unsynced : Option UnsyncedLyrics
  synced_path : Option String
  unsynced_path : Option String
deriving DecidableEq, Repr

/-- One line of `convert_to_lrc` output:
`"[{:02}:{:02}.{:02}]{}\n"` applied to minutes, seconds,
`milliseconds / 10` and the text. -/
def serializeLrcLine (line : LyricsLine) : List Char :=
  let minutes := line.timestamp / 60000
  let seconds := (line.timestamp % 60000) / 1000
  let milliseconds := line.timestamp % 1000
  '[' :: (fmt2 minutes ++ ':' :: fmt2 seconds ++ '.' :: fmt2 (milliseconds / 10)
    ++ ']' :: line.text.data ++ ['\n'])

/-- `MetadataEmbedder::convert_to_lrc` (textually identical to
`LyricsDownloader::convert_to_lrc`): an optional `[offset:<ms>]` line when
the offset is non-zero, then one `[MM:SS.CC]<text>` line per lyric line. -/
def convert_to_lrc (lyrics : SyncedLyrics) : String :=
  String.mk
    ((if lyrics.offset ≠ 0 then
        "[offset:".data ++ intDigits lyrics.offset ++ [']', '\n']
      else []) ++
     (lyrics.lines.map serializeLrcLine).flatten)

/-- `LyricsDownloader::parse_timestamp`: `MM:SS` or `MM:SS.CC`, all three
components parsed as `u32`, combined into milliseconds. -/
def parse_timestamp (timestamp_str : List Char) : Option Nat :=
  match splitChar ':' timestamp_str with
  | [p0, p1] => do
    let minutes ← rustParseU32 p0
    let seconds_parts := splitChar '.' p1
    let seconds ← rustParseU32 (seconds_parts.headD [])
    let centiseconds ← rustParseU32 ((seconds_parts.get? 1).getD ['0'])
    pure (minutes * 60000 + seconds * 1000 + centiseconds * 10)
  | _ => none

/-- Line loop of `LyricsDownloader::parse_lrc_content`: trim each line,
skip empty ones, cut at the first `]`, keep lines whose bracketed prefix
parses as a timestamp.  A line whose first `]` is its first character
makes the source panic on the slice `&line[1..0]`; that is modelled as an
error. -/
def parseLrcLines : List (List Char) → Except String (List LyricsLine)
  | [] => .ok []
  | l :: rest =>
    let line := rustTrim l
    if line.isEmpty then parseLrcLines rest
    else
      match line.findIdx? (fun c => c = ']') with
      | some bracket_end =>
        if bracket_end = 0 then
          .error "panic: slice index starts at 1 but ends at 0"
        else
          let timestamp_str := (line.drop 1).take (bracket_end - 1)
          let text := line.drop (bracket_end + 1)
          match parse_timestamp timestamp_str with
          | some timestamp => do
            let lines ← parseLrcLines rest
            pure (LyricsLine.mk timestamp (String.mk text) :: lines)
          | none => parseLrcLines rest
      | none => parseLrcLines rest

/-- `LyricsDownloader::parse_lrc_content`: parse all lines; an empty
result is the error `"No valid LRC lines found"`. -/
def parse_lrc_content (content : String) : Except String (List LyricsLine) :=
  match parseLrcLines (rustLines content.data) with
  | .error e => .error e
  | .ok lines =>
    if lines.isEmpty then .error "No valid LRC lines found" else .ok lines

/-- Outcomes of the two provider chains used by
`download_lyrics_for_embedding`: `download_synced_lyrics` (LRClib then
lyrics.ovh) and `download_unsynced_lyrics` (every text provider per query
variant).  An `error` value means every provider in that chain failed. -/
structure LyricsProviders where
  syncedRes : Except String SyncedLyrics
  unsyncedRes : Except String UnsyncedLyrics

/-- `LyricsDownloader::download_lyrics_for_embedding`: synced lyrics win;
otherwise fall back to unsynced; when both chains fail the call still
returns `Ok` with an all-`None` result. -/
def download_lyrics_for_embedding (p : LyricsProviders) :
    Except String LyricsResult :=
  match p.syncedRes with
  | .ok synced => .ok ⟨some synced, none, none, none⟩
  | .error _ =>
    match p.unsyncedRes with
    | .ok unsynced => .ok ⟨none, some unsynced, none, none⟩
    | .error _ => .ok ⟨none, none, none, none⟩

/-! ## Metadata embedder (src/downloader/metadata.rs) -/

/-- `MetadataEmbedder::format_metadata_string`: replace `"; "` with
`", "`. -/
def format_metadata_string (text : String) : String :=
  String.mk (replaceSub "; ".data ", ".data text.data)

/-- Join a list of strings with a separator (Rust `Vec::join`). -/
def joinSep (sep : String) : List String → String
  | [] => ""
  | [s] => s
  | s :: t => s ++ sep ++ joinSep sep t

/-- The ID3 tag state written by `embed_mp3_metadata`: every frame the
function can set.  Cover bytes are `List Nat`. -/
structure Id3Tag where
  title : Option String
  artist : Option String
  album : Option String
  album_artist : Option String
  track : Option Nat
  disc : Option Nat
  year : Option Int
  genre : Option String
  composer : Option String
  comment : Option String
  pictures : List (List Nat)
  synced_lyrics : Option (List (Nat × String))
  unsynced_lyrics : Option String
deriving DecidableEq, Repr

/-- `MetadataEmbedder::embed_mp3_metadata`, as the tag it writes.  `tag0`
is the tag read from the file (or a fresh tag).  The `_options` parameter
is accepted and never read, exactly as in the source. -/
def embed_mp3_metadata (tag0 : Id3Tag) (track : TrackMetadata)
    (cover_art_data : Option (List Nat)) (lyrics_data : Option LyricsResult)
    (_options : DownloadOptions) : Id3Tag :=
  let tag := tag0
  let tag := if track.title ≠ "" then
    { tag with title := some (format_metadata_string track.title) } else tag
  let tag := if track.artist ≠ "" then
    { tag with artist := some (format_metadata_string track.artist) } else tag
  let tag := if track.album ≠ "" then
    { tag with album := some (format_metadata_string track.album) } else tag
  let tag := match track.album_artist with
    | some aa => { tag with album_artist := some (format_metadata_string aa) }
    | none => tag
  let tag := match track.track_number with
    | some n => { tag with track := some n }
    | none => tag
  let tag := match track.disc_number with
    | some n => { tag with disc := some n }
    | none => tag
  let tag := match track.release_date with
    | some y =>
      match rustParseI32 y.data with
      | some yn => { tag with year := some yn }
      | none => tag
    | none => tag
  let tag := if ¬ track.genres.isEmpty then
    let g := some (joinSep ", " (track.genres.map format_metadata_string))
    { tag with genre := g }
    else tag
  let tag := match track.composer with
    | some c => { tag with composer := some (format_metadata_string c) }
    | none => tag
  let tag := match track.comment with
    | some c => { tag with comment := some (format_metadata_string c) }
    | none => tag
  let tag := match cover_art_data with
    | some d => { tag with pictures := tag.pictures ++ [d] }
    | none => tag
  match lyrics_data with
  | some lyr =>
    match lyr.synced with
    | some synced =>
      let sl := some (synced.lines.map fun line => (line.timestamp, line.text))
      { tag with synced_lyrics := sl }
    | none =>
      match lyr.unsynced with
      | some unsynced => { tag with unsynced_lyrics := some unsynced.text }
      | none => tag
  | none => tag

/-- The generic (lofty) tag state written by `embed_lofty_metadata`. -/
structure LoftyTag where
  title : Option String
  artist : Option String
  album : Option String
  album_artist : Option String
  track_number : Option String
  disc_number : Option String
  year : Option String
  genre : Option String
  composer : Option String
  comment : Option String
  picture : Option (List Nat)
  lyrics : Option String
deriving DecidableEq, Repr

/-- The synced-lyrics text `embed_lofty_metadata` stores in the generic
lyrics field: `[MM:SS.CC]<text>` lines joined with newlines (no trailing
newline, no offset header). -/
def lofty_synced_text (synced : SyncedLyrics) : String :=
  joinSep "\n" (synced.lines.map fun line =>
    let minutes := line.timestamp / 60000
    let seconds := (line.timestamp % 60000) / 1000
    let centiseconds := (line.timestamp % 1000) / 10
    String.mk ('[' :: (fmt2 minutes ++ ':' :: fmt2 seconds ++ '.' ::
      fmt2 centiseconds ++ [']'])) ++ line.text)

/-- `MetadataEmbedder::embed_lofty_metadata`, as the tag it writes; the
`_options` parameter is accepted and never read, exactly as in the
source. -/
def embed_lofty_metadata (tag0 : LoftyTag) (track : TrackMetadata)
    (cover_art_data : Option (List Nat)) (lyrics_data : Option LyricsResult)
    (_options : DownloadOptions) : LoftyTag :=
  let tag := tag0
  let tag := if track.title ≠ "" then
    { tag with title := some (format_metadata_string track.title) } else tag
  let tag := if track.artist ≠ "" then
    { tag with artist := some (format_metadata_string track.artist) } else tag
  let tag := if track.album ≠ "" then
    { tag with album := some (format_metadata_string track.album) } else tag
  let tag := match track.album_artist with
    | some aa => { tag with album_artist := some (format_metadata_string aa) }
    | none => tag
  let tag := match track.track_number with
    | some n => { tag with track_number := some (String.mk (natDigits n)) }
    | none => tag
  let tag := match track.disc_number with
    | some n => { tag with disc_number := some (String.mk (natDigits n)) }
    | none => tag
  let tag := match track.release_date with
    | some y => { tag with year := some y }
    | none => tag
  let tag := if ¬ track.genres.isEmpty then
    let g := some (joinSep ", " (track.genres.map format_metadata_string))
    { tag with genre := g }
    else tag
  let tag := match track.composer with
    | some c => { tag with composer := some (format_metadata_string c) }
    | none => tag
  let tag := match track.comment with
    | some c => { tag with comment := some (format_metadata_string c) }
    | none => tag
  let tag := match cover_art_data with
    | some d => { tag with picture := some d }
    | none => tag
  match lyrics_data with
  | some lyr =>
    match lyr.synced with
    | some synced => { tag with lyrics := some (lofty_synced_text synced) }
    | none =>
      match lyr.unsynced with
      | some unsynced => { tag with lyrics := some unsynced.text }
      | none => tag
  | none => tag

/-- A sidecar lyrics file written by `embed_with_lyrics_folder`. -/
inductive Sidecar
  | lrc (content : String)
  | txt (content : String)
deriving DecidableEq, Repr

/-- The sidecar file `embed_with_lyrics_folder` writes: an `.lrc` file
with `convert_to_lrc` content for synced lyrics, else a `.txt` file for
unsynced lyrics, else nothing. -/
def lyrics_folder_sidecar (lyrics_data : Option LyricsResult) :
    Option Sidecar :=
  match lyrics_data with
  | some lyr =>
    match lyr.synced with
    | some synced => some (.lrc (convert_to_lrc synced))
    | none =>
      match lyr.unsynced with
      | some unsynced => some (.txt unsynced.text)
      | none => none
  | none => none

/-- What `embed_metadata` writes, depending on the container dispatch. -/
inductive EmbedOutcome
  | mp3 (tag : Id3Tag)
  | withFolder (tag : LoftyTag) (sidecar : Option Sidecar)
  | lofty (tag : LoftyTag)
deriving DecidableEq, Repr

/-- `MetadataEmbedder::embed_metadata`: dispatch on the lowercased file
extension — `mp3` uses the ID3 writer, `m4a`/`mp4`/`flac`/`wav` use the
lofty writer plus a sidecar lyrics file, anything else uses the lofty
writer alone. -/
def embed_metadata (file_ext : String) (tag0mp3 : Id3Tag)
    (tag0lofty : LoftyTag) (track : TrackMetadata)
    (cover_art_data : Option (List Nat)) (lyrics_data : Option LyricsResult)
    (options : DownloadOptions) : EmbedOutcome :=
  let extension := String.mk (toLowerChars file_ext.data)
  if extension = "mp3" then
    .mp3 (embed_mp3_metadata tag0mp3 track cover_art_data lyrics_data options)
  else if extension = "m4a" ∨ extension = "mp4" ∨ extension = "flac" ∨
      extension = "wav" then
    .withFolder
      (embed_lofty_metadata tag0lofty track cover_art_data lyrics_data options)
      (lyrics_folder_sidecar lyrics_data)
  else
    .lofty
      (embed_lofty_metadata tag0lofty track cover_art_data lyrics_data options)

/-! ## Audio orchestrator (src/downloader/audio.rs) -/

/-- ASCII word character, modelling `\w` of the source's regex patterns
(the crate default is Unicode-aware; the two agree on ASCII). -/
def isWordChar (c : Char) : Bool :=
  c.isAlphanum || c = '_'

/-- Is there a `\b` word boundary between `prev` (none at the string
edge) and `c`? -/
def wordBoundary (prev : Option Char) (c : Char) : Bool :=
  (match prev with | some p => isWordChar p | none => false) != isWordChar c

/-- Is there a `\b` word boundary after the final character `last` of a
match, `rest` being the remaining input? -/
def wordBoundaryAfter (last : Char) (rest : List Char) : Bool :=
  isWordChar last != (match rest.head? with
    | some c => isWordChar c
    | none => false)

/-- Helper for `replaceWB`: left-to-right scan replacing every
`\b<sep>\b` match by `rep`; `skip` characters of a matched separator
remain to be consumed, `prev` is the character before the scan point. -/
def replaceWBAux (sep rep : List Char) : Nat → Option Char → List Char →
    List Char
  | _, _, [] => []
  | skip + 1, prev, _ :: t => replaceWBAux sep rep skip prev t
  | 0, prev, c :: t =>
    if sep.isPrefixOf (c :: t) && wordBoundary prev c &&
        wordBoundaryAfter (sep.getLastD c) (List.drop sep.length (c :: t)) then
      rep ++ replaceWBAux sep rep (sep.length - 1) sep.getLast? t
    else
      c :: replaceWBAux sep rep 0 (some c) t

/-- `Regex::new(&format!(r"\b{}\b", escape(sep))).replace_all(s, rep)` for
a literal separator `sep`. -/
def replaceWB (sep rep l : List Char) : List Char :=
  replaceWBAux sep rep 0 none l

/-- Helper for `collapseWs`: `lastWs` records whether the previous
character belonged to a whitespace run already emitted as one space. -/
def collapseWsAux : Bool → List Char → List Char
  | _, [] => []
  | lastWs, c :: t =>
    if rustIsWhitespace c then
      if lastWs then collapseWsAux true t
      else ' ' :: collapseWsAux true t
    else c :: collapseWsAux false t

/-- `Regex::new(r"\s+").replace_all(s, " ")`: each maximal whitespace run
becomes a single space. -/
def collapseWs (l : List Char) : List Char :=
  collapseWsAux false l

/-- The multi-artist separator list of `format_artists_for_filename`. -/
def artist_separators : List String :=
  ["feat.", "featuring", "ft.", "ft", "&", "x", "X", "vs", "vs.", "feat"]

/-- `audio::format_artists_for_filename`: replace each word-bounded
separator by a comma-space, collapse whitespace, trim. -/
def format_artists_for_filename (artist : String) : String :=
  let formatted := artist_separators.foldl
    (fun acc sep => replaceWB sep.data ", ".data acc) artist.data
  String.mk (rustTrim (collapseWs formatted))

/-- `audio::sanitize_filename`: map the nine forbidden path characters to
underscores, semicolons to commas, then trim. -/
def sanitize_filename (filename : String) : String :=
  String.mk (rustTrim (filename.data.map fun c =>
    if c = '<' ∨ c = '>' ∨ c = ':' ∨ c = '"' ∨ c = '/' ∨ c = '\\' ∨
        c = '|' ∨ c = '?' ∨ c = '*' then '_'
    else if c = ';' then ',' else c))

/-- Final path component (paths are modelled with `/` separators). -/
def pathFileName (p : List Char) : List Char :=
  (splitChar '/' p).getLastD []

/-- Index of the last `.` in a file name, if any. -/
def lastDotIdx (name : List Char) : Option Nat :=
  match name.reverse.findIdx? (fun c => c = '.') with
  | none => none
  | some i => some (name.length - 1 - i)

/-- `Path::extension` on the string form of a path. -/
def pathExtension (p : String) : Option String :=
  let name := pathFileName p.data
  match lastDotIdx name with
  | none => none
  | some 0 => none
  | some i => some (String.mk (name.drop (i + 1)))

/-- `Path::file_stem` on the string form of a path. -/
def pathFileStem (p : String) : Option String :=
  let name := pathFileName p.data
  if name.isEmpty then none
  else
    match lastDotIdx name with
    | none => some (String.mk name)
    | some 0 => some (String.mk name)
    | some i => some (String.mk (name.take i))

/-- `Path::parent` on the string form of a path (chars before the final
separator). -/
def pathParent (p : String) : String :=
  let name := pathFileName p.data
  String.mk (p.data.take (p.data.length - name.length - 1))

/-- `PathBuf::set_file_name` on the string form of a path. -/
def setFileName (p newName : String) : String :=
  let parent := pathParent p
  if parent.data.isEmpty then newName else parent ++ "/" ++ newName

/-- `AudioDownloader::get_output_path`:
`<output_dir>/tracks/<sanitized "artist - title">.<ext>`. -/
def get_output_path (track : TrackMetadata) (options : DownloadOptions) :
    String :=
  let formatted_artist := format_artists_for_filename track.artist
  let filename := formatted_artist ++ " - " ++ track.title
  let sanitized_filename := sanitize_filename filename
  options.output_dir ++ "/tracks/" ++ sanitized_filename ++ "." ++
    target_ext options.format

/-- Outcome of one `YoutubeDownloader::download_audio` invocation.  The
progress callback fires (once, with value 1.0) as soon as the subprocess
is spawned, so a failure after the spawn (`lateErr`) still emits the
callback event while a failure before it (`earlyErr`) does not. -/
inductive FetchOutcome
  | earlyErr (msg : String)
  | lateErr (msg : String)
  | success
deriving DecidableEq, Repr

/-- Outcomes of the SoundCloud fallback search.  Only emptiness of the
result matters to the orchestrator; the track fields mirror
`soundcloud::SoundcloudTrack`. -/
structure SoundcloudTrack where
  id : Nat
  title : String
  duration : Nat
deriving DecidableEq, Repr

/-- Everything external one `download_track` run can observe: the search
engine, the fetch subprocess, the file system, the converter, the
enrichment providers, the embedder and the two fallback backends. -/
structure Oracle where
  searchRes : Except String (List SearchResult)
  fetch : FetchOutcome
  convInputOnDisk : Bool
  convertRes : Except String Unit
  renameRes : Except String Unit
  tempStamp : Nat
  coverRes : Except String (List Nat)
  lyricsProviders : LyricsProviders
  embedRes : Except String Unit
  coverSaveRes : Except String Unit
  scSearch : Except String (List SoundcloudTrack)
  ytdlpAvailable : Bool
  ytdlpFetch : Except String Unit

/-- `AudioDownloader::convert_audio`: skip when `needs_conversion` is
false; otherwise convert, routing through a temp file (then a rename)
when the computed output path collides with the input. -/
def convert_audio (o : Oracle) (input_path : String)
    (options : DownloadOptions) : Except String String :=
  if ¬ needs_conversion ⟨o.convInputOnDisk, pathExtension input_path⟩
      options.format options.bitrate then
    .ok input_path
  else
    let extension := target_ext options.format
    let output_path := match pathFileStem input_path with
      | some stem => setFileName input_path (stem ++ "." ++ extension)
      | none => input_path
    let temp_dir := options.output_dir ++ "/temp"
    let output_path := if input_path = output_path then
        temp_dir ++ "/temp_convert_" ++ String.mk (natDigits o.tempStamp) ++
          "." ++ extension
      else output_path
    match o.convertRes with
    | .error e => .error e
    | .ok _ =>
      if input_path ≠ output_path ∧ pathParent output_path = temp_dir then
        match o.renameRes with
        | .error e => .error ("Failed to replace original file: " ++ e)
        | .ok _ => .ok input_path
      else .ok output_path

/-- The search cache field of `AudioDownloader` (`HashMap<String,
Vec<SearchResult>>`), as an association list. -/
abbrev Cache := List (String × List SearchResult)

/-- `HashMap::get`. -/
def cacheGet (c : Cache) (k : String) : Option (List SearchResult) :=
  match List.find? (fun p => p.1 = k) c with
  | some p => some p.2
  | none => none

/-- `HashMap::insert`. -/
def cacheInsert (c : Cache) (k : String) (v : List SearchResult) : Cache :=
  (k, v) :: List.filter (fun p => ¬ (p.1 = k)) c

/-- Arguments of the one possible `embed_metadata` call in a run. -/
structure EmbedCallArgs where
  path : String
  cover : Option (List Nat)
  lyrics : Option LyricsResult
deriving DecidableEq, Repr

/-- Instrumentation of one `download_track` run: the emitted progress
events, the embedder call (if any) and which backends were invoked. -/
structure RunLog where
  events : List DownloadProgress
  embedCall : Option EmbedCallArgs
  downloadInvoked : Bool
  scSearchInvoked : Bool
  ytdlpChecked : Bool
  ytdlpFetchInvoked : Bool
deriving DecidableEq, Repr

/-- The all-quiet starting log. -/
def RunLog.init : RunLog :=
  ⟨[], none, false, false, false, false⟩

/-- Result of one `download_track` run: the returned value, the run log,
and the search cache afterwards. -/
structure RunResult where
  result : Except String String
  log : RunLog
  cache : Cache

/-- Shorthand for one emitted `DownloadProgress`. -/
def progressEvent (track_id : String) (stage : DownloadStage)
    (progress : Nat) (message : String) : DownloadProgress :=
  ⟨track_id, stage, progress, message⟩

/-- Tail of the main branch of `download_track` after a successful
conversion: optional parallel enrichment, optional embedding, optional
cover-art folder save (whose failure is swallowed), then `Completed`. -/
def download_track_tail (o : Oracle) (track : TrackMetadata)
    (options : DownloadOptions) (cache2 : Cache) (converted_path : String)
    (ev3 : List DownloadProgress) : RunResult :=
  let enr := options.download_cover || options.download_lyrics
  let ev4 := ev3 ++ (if enr then
    [progressEvent track.id .DownloadingCover 80
      "Downloading cover art and lyrics for embedding..."] else [])
  let cover_art_data : Option (List Nat) :=
    if enr then
      if options.download_cover then
        match o.coverRes with
        | .ok d => some d
        | .error _ => none
      else none
    else none
  let lyrics_data : Option LyricsResult :=
    if enr then
      if options.download_lyrics then
        match download_lyrics_for_embedding o.lyricsProviders with
        | .ok r => some r
        | .error _ => none
      else none
    else none
  let ev5 := ev4 ++ (if options.embed_metadata then
    [progressEvent track.id .EmbeddingMetadata 90 "Embedding metadata..."]
    else [])
  let embedCall := if options.embed_metadata then
      some (EmbedCallArgs.mk converted_path cover_art_data lyrics_data)
    else none
  let failEmbed : Option String :=
    if options.embed_metadata then
      match o.embedRes with
      | .error e => some e
      | .ok _ => none
    else none
  match failEmbed with
  | some e =>
    ⟨.error e,
      { RunLog.init with
        events := ev5
        embedCall := embedCall
        downloadInvoked := true }, cache2⟩
  | none =>
    let ev6 := ev5 ++ (if options.download_cover && cover_art_data.isSome then
      [progressEvent track.id .DownloadingCover 95
        "Saving cover art to covers folder..."] else [])
    let ev7 := ev6 ++ [progressEvent track.id .Completed 100
      "Download completed successfully!"]
    ⟨.ok converted_path,
      { RunLog.init with
        events := ev7
        embedCall := embedCall
        downloadInvoked := true }, cache2⟩

/-- Main branch of `download_track`: fetch the top-ranked candidate (a
fetch failure propagates immediately through `?`), convert, then the
tail. -/
def download_track_main (o : Oracle) (track : TrackMetadata)
    (options : DownloadOptions) (cache2 : Cache) (best : SearchResult)
    (ev1 : List DownloadProgress) : RunResult :=
  let ev2 := ev1 ++ [progressEvent track.id .DownloadingAudio 30
    ("Found " ++ best.platform ++ " source, downloading...")]
  let output_path := get_output_path track options
  let callbackEv := [progressEvent track.id .DownloadingAudio 60
    "Downloading... 100.0%"]
  match o.fetch with
  | .earlyErr e =>
    ⟨.error e, { RunLog.init with events := ev2, downloadInvoked := true },
      cache2⟩
  | .lateErr e =>
    ⟨.error e,
      { RunLog.init with
        events := ev2 ++ callbackEv
        downloadInvoked := true }, cache2⟩
  | .success =>
    let ev3 := ev2 ++ callbackEv ++ [progressEvent track.id .ConvertingAudio
      60 "Converting audio format..."]
    match convert_audio o output_path options with
    | .error e =>
      ⟨.error e,
        { RunLog.init with events := ev3, downloadInvoked := true }, cache2⟩
    | .ok converted_path =>
      download_track_tail o track options cache2 converted_path ev3

/-- Final (yt-dlp) fallback of `download_track`, reached when the
SoundCloud fallback produced nothing. -/
def download_track_ytdlp (o : Oracle) (track : TrackMetadata)
    (options : DownloadOptions) (cache2 : Cache)
    (ev2 : List DownloadProgress) : RunResult :=
  if o.ytdlpAvailable then
    let ev3 := ev2 ++ [progressEvent track.id .DownloadingAudio 30
      "Using yt-dlp fallback, downloading..."]
    let output_path := get_output_path track options
    match o.ytdlpFetch with
    | .error e =>
      ⟨.error e,
        { RunLog.init with
          events := ev3
          scSearchInvoked := true
          ytdlpChecked := true
          ytdlpFetchInvoked := true }, cache2⟩
    | .ok _ =>
      let ev4 := ev3 ++ [progressEvent track.id .Completed 100
        "Download completed successfully!"]
      ⟨.ok output_path,
        { RunLog.init with
          events := ev4
          scSearchInvoked := true
          ytdlpChecked := true
          ytdlpFetchInvoked := true }, cache2⟩
  else
    ⟨.error "No audio source found",
      { RunLog.init with
        events := ev2
        scSearchInvoked := true
        ytdlpChecked := true }, cache2⟩

/-- Empty-candidate branch of `download_track`: emit an `Error` event,
then try the SoundCloud search fallback, then yt-dlp. -/
def download_track_fallback (o : Oracle) (track : TrackMetadata)
    (options : DownloadOptions) (cache2 : Cache)
    (ev1 : List DownloadProgress) : RunResult :=
  let ev2 := ev1 ++ [progressEvent track.id .Error 0
    "No search results found for this track"]
  match o.scSearch with
  | .ok rs =>
    if ¬ rs.isEmpty then
      let ev3 := ev2 ++ [progressEvent track.id .DownloadingAudio 30
        "Found SoundCloud source, downloading..."] ++
        [progressEvent track.id .Completed 100
          "Download completed successfully!"]
      ⟨.ok (get_output_path track options),
        { RunLog.init with events := ev3, scSearchInvoked := true }, cache2⟩
    else download_track_ytdlp o track options cache2 ev2
  | .error _ => download_track_ytdlp o track options cache2 ev2

/-- Branch on emptiness of the obtained candidate list, as the source's
`if !search_results.is_empty()` with `&search_results[0]`. -/
def download_track_after_search (o : Oracle) (track : TrackMetadata)
    (options : DownloadOptions) (cache2 : Cache)
    (search_results : List SearchResult) (ev1 : List DownloadProgress) :
    RunResult :=
  match search_results with
  | best :: _ => download_track_main o track options cache2 best ev1
  | [] => download_track_fallback o track options cache2 ev1

/-- `AudioDownloader::download_track`: consult the cache, otherwise run
the optimized search (caching a non-empty result, returning an error on a
failed or empty search), then proceed by candidate-list emptiness. -/
def download_track (o : Oracle) (track : TrackMetadata)
    (options : DownloadOptions) (cache : Cache) : RunResult :=
  let search_query := track.artist ++ " " ++ track.title
  let ev1 := [progressEvent track.id .SearchingSource 10
    "Searching for audio source..."]
  match cacheGet cache search_query with
  | some cached_results =>
    download_track_after_search o track options cache cached_results ev1
  | none =>
    match o.searchRes with
    | .ok results =>
      if results.isEmpty then
        ⟨.error "No results found",
          { RunLog.init with
        events := ev1 ++ [progressEvent track.id .Error 0
          "No results found for this track"] }, cache⟩
      else
        download_track_after_search o track options
          (cacheInsert cache search_query results) results ev1
    | .error e =>
      ⟨.error ("Search failed: " ++ e),
        { RunLog.init with
        events := ev1 ++ [progressEvent track.id .Error 0
          ("Search failed: " ++ e)] }, cache⟩

/-! ## Concurrent batch scheduler (src/downloader/async_manager.rs) -/

/-- Per-track task result (`async_manager::DownloadTaskResult`). -/
structure DownloadTaskResult where
  track : TrackMetadata
  success : Bool
  output_path : Option String
  error : Option String
deriving DecidableEq, Repr

/-- The placeholder track recorded for a crashed task:
`TrackMetadata { title: "Unknown", artist: "Unknown", album: "Unknown",
..Default::default() }`. -/
def unknown_track : TrackMetadata :=
  ⟨"", "Unknown", "Unknown", "Unknown", none, none, none, none, 0, [], "",
    none, [], none, none, none⟩

/-- How one spawned track task ends: its `download_track` call runs
against an oracle, or the task panics (observed by the scheduler as a
`JoinError`). -/
inductive TaskEnv
  | runs (o : Oracle)
  | panics (msg : String)

/-- The `DownloadTaskResult` recorded for one joined task. -/
def taskResultOf (options : DownloadOptions) (track : TrackMetadata)
    (env : TaskEnv) : DownloadTaskResult :=
  match env with
  | .panics msg =>
    ⟨unknown_track, false, none, some ("Task failed: " ++ msg)⟩
  | .runs o =>
    match (download_track o track options []).result with
    | .ok output_path => ⟨track, true, some output_path, none⟩
    | .error e => ⟨track, false, none, some e⟩

/-- `AsyncDownloadManager::download_tracks`: one task per track (each
with a freshly constructed `AudioDownloader`, hence an empty search
cache), every handle awaited in spawn order, a panicked task recorded as
a failed result. -/
def download_tracks (options : DownloadOptions)
    (tracks : List TrackMetadata) (envs : List TaskEnv) :
    List DownloadTaskResult :=
  (tracks.zip envs).map fun te => taskResultOf options te.1 te.2

/-! ## Shared concrete sample data for witnesses and counterexamples -/

/-- A concrete filtered search candidate. -/
def sampleResult : SearchResult :=
  ⟨"Artist - Song Title", "https://youtube.com/watch?v=abc", some 200,
    some "Uploader", 1000, "YouTube", none⟩

/-- A concrete track. -/
def sampleTrack : TrackMetadata :=
  ⟨"id1", "Song", "Artist", "Album", none, some 1, none, some "2020",
    200000, ["pop"], "https://spotify.example/x", none, [], none, none,
    none⟩

/-- Concrete options with everything enabled. -/
def sampleOptions : DownloadOptions :=
  ⟨.Mp3, .Kbps320, "out", true, true, true, 500, 500, "jpeg", true, true,
    true, true, true, true, true, true, true, true⟩

/-- Lyrics providers that both succeed. -/
def goodProviders : LyricsProviders :=
  ⟨.ok ⟨[⟨0, "a"⟩], 0, "LRClib"⟩, .ok ⟨"text", "LRClib"⟩⟩

/-- Lyrics providers that both fail. -/
def failProviders : LyricsProviders :=
  ⟨.error "no synced lyrics", .error "no lyrics"⟩

/-- A fully successful oracle for the main branch. -/
def happyOracle : Oracle :=
  ⟨.ok [sampleResult], .success, true, .ok (), .ok (), 0, .ok [1, 2, 3],
    goodProviders, .ok (), .ok (), .error "soundcloud down", false,
    .error "yt-dlp missing"⟩

/-! ## Claim theorems -/

/-- C6: a search candidate survives the filtering step if and only if
both filters pass; the duration filter accepts exactly unknown durations
and 61..960 seconds (60 rejected, 61 and 960 accepted, 961 rejected);
the content-type filter rejects album keywords, triple-dash titles and
long-form timestamps while accepting `"Artist - Song Title"`. -/
theorem C6_candidate_filters :
    (∀ (r : SearchResult) (l : List SearchResult),
      r ∈ filter_results l ↔
        r ∈ l ∧ is_track r.title = true ∧ is_valid_duration r.duration = true)
    ∧ (∀ d : Option Nat, is_valid_duration d = true ↔
        (d = none ∨ ∃ s, d = some s ∧ 61 ≤ s ∧ s ≤ 960))
    ∧ is_valid_duration (some 60) = false
    ∧ is_valid_duration (some 61) = true
    ∧ is_valid_duration (some 960) = true
    ∧ is_valid_duration (some 961) = false
    ∧ is_track "Artist - Full Album (2020)" = false
    ∧ is_track "Artist - Song Title" = true
    ∧ is_track "A - B - C" = false
    ∧ is_track "Artist - Song 1:23:45" = false := by
  refine ⟨?_, ?_, by decide, by decide, by decide, by decide, by decide,
    by decide, by decide, by decide⟩
  · intro r l
    simp [filter_results, List.mem_filter, Bool.and_eq_true, and_assoc]
  · intro d
    cases d with
    | none => simp [is_valid_duration]
    | some s => simp [is_valid_duration]

/-- C7 counterexample: for an input path with extension `wav` that does
not exist on disk, `needs_conversion` to Mp3 returns `false`, not `true`
as the claim requires of every `wav` path. -/
theorem C7_counterexample :
    needs_conversion ⟨false, some "wav"⟩ AudioFormat.Mp3 Bitrate.Kbps320 =
      false := by
  decide

/-- C7 (amended): `needs_conversion` returns true only if the input file
exists and its lowercased extension differs from the target extension; it
is independent of the bitrate, returns false whenever the extensions
already match (for every bitrate), returns true for an existing `wav`
input with target Mp3, and returns false for an `mp3` input with target
Mp3 whether or not the file exists. -/
theorem C7_needs_conversion (p : PathFacts) (f : AudioFormat)
    (b1 b2 : Bitrate) :
    (needs_conversion p f b1 = true →
      p.onDisk = true ∧
        String.mk (toLowerChars (p.ext.getD "").data) ≠ target_ext f)
    ∧ needs_conversion p f b1 = needs_conversion p f b2
    ∧ (String.mk (toLowerChars (p.ext.getD "").data) = target_ext f →
        needs_conversion p f b1 = false)
    ∧ (p.onDisk = true → p.ext = some "wav" → f = AudioFormat.Mp3 →
        needs_conversion p f b1 = true)
    ∧ (p.ext = some "mp3" → f = AudioFormat.Mp3 →
        needs_conversion p f b1 = false) := by
  obtain ⟨d, e⟩ := p
  refine ⟨?_, ?_, ?_, ?_, ?_⟩
  · intro h
    cases d with
    | false => simp [needs_conversion] at h
    | true =>
      refine ⟨rfl, ?_⟩
      intro hx
      simp [needs_conversion, hx] at h
  · cases d <;> simp [needs_conversion]
  · intro hx
    cases d <;> simp [needs_conversion, hx]
  · intro hd hx hf
    subst hd hx hf
    cases b1 <;> decide
  · intro hx hf
    subst hx hf
    cases d <;> cases b1 <;> decide

/-- C7 witness: the amended theorem applied at an existing `wav` input. -/
theorem C7_needs_conversion_witness :
    needs_conversion ⟨true, some "wav"⟩ AudioFormat.Mp3 Bitrate.Kbps128 =
      true :=
  (C7_needs_conversion ⟨true, some "wav"⟩ AudioFormat.Mp3 Bitrate.Kbps128
    Bitrate.Kbps320).2.2.2.1 rfl rfl rfl

/-- Characterization of which tiers `search_optimized` invokes. -/
theorem search_optimized_calls (b : SearchBackend) :
    (search_optimized b).2 =
      if (okResults b.yt1).isEmpty = false then [Tier.yt1]
      else if (okResults b.yt5).isEmpty = false then [Tier.yt1, Tier.yt5]
      else if (okResults b.sc1).isEmpty = false then
        [Tier.yt1, Tier.yt5, Tier.sc1]
      else [Tier.yt1, Tier.yt5, Tier.sc1, Tier.sc5] := by
  simp only [search_optimized]
  cases h1 : (okResults b.yt1).isEmpty with
  | false => simp [h1]
  | true =>
    rw [List.isEmpty_iff] at h1
    cases h2 : (okResults b.yt5).isEmpty with
    | false => simp [h1, h2]
    | true =>
      rw [List.isEmpty_iff] at h2
      cases h3 : (okResults b.sc1).isEmpty with
      | false => simp [h1, h2, h3]
      | true =>
        rw [List.isEmpty_iff] at h3
        simp [h1, h2, h3]

/-- C5: in the tiered search, tier 2 (primary wide) runs only when tier 1
yielded nothing, tier 3 (secondary narrow) only when tiers 1 and 2
yielded nothing, tier 4 (secondary wide) only when tiers 1 to 3 yielded
nothing; in particular a tier-1 result passing both filters stops the
escalation at tier 1. -/
theorem C5_tiered_search (b : SearchBackend) :
    (Tier.yt5 ∈ (search_optimized b).2 → okResults b.yt1 = [])
    ∧ (Tier.sc1 ∈ (search_optimized b).2 →
        okResults b.yt1 = [] ∧ okResults b.yt5 = [])
    ∧ (Tier.sc5 ∈ (search_optimized b).2 →
        okResults b.yt1 = [] ∧ okResults b.yt5 = [] ∧ okResults b.sc1 = [])
    ∧ (∀ l, b.yt1 = .ok l → l ≠ [] → (search_optimized b).2 = [Tier.yt1])
    ∧ (∀ l r, b.yt1 = .ok l → r ∈ l → is_track r.title = true →
        is_valid_duration r.duration = true →
        (search_optimized b).2 = [Tier.yt1]) := by
  rw [search_optimized_calls b]
  refine ⟨?_, ?_, ?_, ?_, ?_⟩
  · split_ifs with h1 h2 h3 <;>
      simp_all [List.isEmpty_iff, List.isEmpty_eq_false]
  · split_ifs with h1 h2 h3 <;>
      simp_all [List.isEmpty_iff, List.isEmpty_eq_false]
  · split_ifs with h1 h2 h3 <;>
      simp_all [List.isEmpty_iff, List.isEmpty_eq_false]
  · intro l hok hne
    have : okResults b.yt1 = l := by simp [okResults, hok]
    split_ifs with h1 h2 h3 <;> simp_all [List.isEmpty_iff]
  · intro l r hok hr _ _
    have hne : l ≠ [] := by
      intro hl
      subst hl
      simp at hr
    have : okResults b.yt1 = l := by simp [okResults, hok]
    split_ifs with h1 h2 h3 <;> simp_all [List.isEmpty_iff]

/-- C5 witness: a backend whose tier 1 returns one candidate passing both
filters; only tier 1 is invoked. -/
theorem C5_tiered_search_witness :
    (search_optimized
      ⟨.ok [sampleResult], .error "e", .error "e", .error "e"⟩).2 =
      [Tier.yt1] :=
  (C5_tiered_search _).2.2.2.1 [sampleResult] rfl (by simp)

/-- The all-`none` starting ID3 tag (`Tag::new()`). -/
def emptyId3Tag : Id3Tag :=
  ⟨none, none, none, none, none, none, none, none, none, none, [], none,
    none⟩

/-- The all-`none` starting lofty tag (`LoftyTag::new(...)`). -/
def emptyLoftyTag : LoftyTag :=
  ⟨none, none, none, none, none, none, none, none, none, none, none, none⟩

/-- C10: the tags written by `embed_metadata` do not depend on the ten
per-field embed toggles: two option records agreeing on every non-toggle
field produce identical embed outcomes, because neither tag writer ever
reads its `options` parameter. -/
theorem C10_toggle_independence (file_ext : String) (tag0mp3 : Id3Tag)
    (tag0lofty : LoftyTag) (track : TrackMetadata)
    (cover : Option (List Nat)) (lyr : Option LyricsResult)
    (o1 o2 : DownloadOptions)
    (_hf : o1.format = o2.format) (_hb : o1.bitrate = o2.bitrate)
    (_hd : o1.output_dir = o2.output_dir)
    (_hl : o1.download_lyrics = o2.download_lyrics)
    (_hc : o1.download_cover = o2.download_cover)
    (_he : o1.embed_metadata = o2.embed_metadata)
    (_hw : o1.cover_width = o2.cover_width)
    (_hh : o1.cover_height = o2.cover_height)
    (_hcf : o1.cover_format = o2.cover_format) :
    embed_metadata file_ext tag0mp3 tag0lofty track cover lyr o1 =
      embed_metadata file_ext tag0mp3 tag0lofty track cover lyr o2 := rfl

/-- C10 witness: flipping `embed_title` (with all other fields equal)
leaves the embedded tags unchanged. -/
theorem C10_toggle_independence_witness :
    sampleOptions.embed_title = true
    ∧ ({ sampleOptions with embed_title := false }
        : DownloadOptions).embed_title = false
    ∧ embed_metadata "mp3" emptyId3Tag emptyLoftyTag sampleTrack none none
        sampleOptions =
      embed_metadata "mp3" emptyId3Tag emptyLoftyTag sampleTrack none none
        { sampleOptions with embed_title := false } :=
  ⟨rfl, rfl,
    C10_toggle_independence "mp3" emptyId3Tag emptyLoftyTag sampleTrack none
      none sampleOptions { sampleOptions with embed_title := false }
      rfl rfl rfl rfl rfl rfl rfl rfl rfl⟩

/-- Index formula for `download_tracks`: the i-th result is the joined
result of the i-th spawned task. -/
theorem download_tracks_getElem (options : DownloadOptions)
    (tracks : List TrackMetadata) (envs : List TaskEnv) (i : Nat) :
    (download_tracks options tracks envs)[i]? =
      (tracks[i]?).bind fun tr =>
        (envs[i]?).map fun env => taskResultOf options tr env := by
  simp only [download_tracks, List.getElem?_map]
  cases h : (tracks.zip envs)[i]? with
  | none =>
    rcases h1 : tracks[i]? with _ | tr
    · simp
    · rcases h2 : envs[i]? with _ | env
      · simp
      · exfalso
        have := (List.getElem?_zip_eq_some (z := (tr, env))).mpr ⟨h1, h2⟩
        rw [h] at this
        exact Option.noConfusion this
  | some z =>
    rw [List.getElem?_zip_eq_some] at h
    rw [h.1, h.2]
    rfl

/-- C4: for N tracks (with one task environment per track),
`download_tracks` returns exactly N results, one per spawned task in
spawn order; a track whose pipeline errors is recorded with
`success = false` and its error message, a panicked task is recorded as a
failed placeholder result, and the i-th result depends only on the i-th
track and task environment, so one failing track never alters the
others. -/
theorem C4_batch_isolation (options : DownloadOptions)
    (tracks : List TrackMetadata) (envs : List TaskEnv)
    (hlen : envs.length = tracks.length) :
    (download_tracks options tracks envs).length = tracks.length
    ∧ (∀ (i : Nat) (tr : TrackMetadata) (env : TaskEnv),
        tracks[i]? = some tr → envs[i]? = some env →
        (download_tracks options tracks envs)[i]? =
          some (taskResultOf options tr env))
    ∧ (∀ (i : Nat) (tr : TrackMetadata) (o : Oracle) (e : String),
        tracks[i]? = some tr →
        envs[i]? = some (TaskEnv.runs o) →
        (download_track o tr options []).result = .error e →
        (download_tracks options tracks envs)[i]? =
          some (DownloadTaskResult.mk tr false none (some e)))
    ∧ (∀ (i : Nat) (tr : TrackMetadata) (msg : String),
        tracks[i]? = some tr →
        envs[i]? = some (TaskEnv.panics msg) →
        (download_tracks options tracks envs)[i]? =
          some (DownloadTaskResult.mk unknown_track false none
            (some ("Task failed: " ++ msg))))
    ∧ (∀ (envs2 : List TaskEnv), envs2.length = tracks.length →
        ∀ (i : Nat), envs2[i]? = envs[i]? →
          (download_tracks options tracks envs2)[i]? =
            (download_tracks options tracks envs)[i]?) := by
  refine ⟨?_, ?_, ?_, ?_, ?_⟩
  · simp [download_tracks, List.length_zip, hlen]
  · intro i tr env h1 h2
    rw [download_tracks_getElem, h1, h2]
    rfl
  · intro i tr o e h1 h2 herr
    rw [download_tracks_getElem, h1, h2]
    simp [taskResultOf, herr]
  · intro i tr msg h1 h2
    rw [download_tracks_getElem, h1, h2]
    rfl
  · intro envs2 _ i hsame
    rw [download_tracks_getElem, download_tracks_getElem, hsame]

/-- C4 witness: a two-track batch whose second task panics still yields
two results. -/
theorem C4_batch_isolation_witness :
    (download_tracks sampleOptions [sampleTrack, sampleTrack]
      [TaskEnv.runs happyOracle, TaskEnv.panics "boom"]).length = 2 :=
  (C4_batch_isolation sampleOptions [sampleTrack, sampleTrack]
    [TaskEnv.runs happyOracle, TaskEnv.panics "boom"] rfl).1

/-- The invariant of the search cache: every stored candidate list is
non-empty (the source inserts only in the `Ok(results) if
!results.is_empty()` arm). -/
def cacheWF (c : Cache) : Prop :=
  ∀ p ∈ c, p.2 ≠ []

/-- A hit in a well-formed cache is a non-empty list. -/
theorem cacheGet_wf (c : Cache) (k : String) (l : List SearchResult)
    (hc : cacheWF c) (h : cacheGet c k = some l) : l ≠ [] := by
  unfold cacheGet at h
  cases hf : List.find? (fun p => p.1 = k) c with
  | none => rw [hf] at h; exact Option.noConfusion h
  | some p =>
    rw [hf] at h
    have hp : p ∈ c := List.mem_of_find?_eq_some hf
    have := hc p hp
    cases h
    exact this

/-- Inserting a non-empty list preserves the cache invariant. -/
theorem cacheInsert_wf (c : Cache) (k : String) (v : List SearchResult)
    (hc : cacheWF c) (hv : v ≠ []) : cacheWF (cacheInsert c k v) := by
  intro p hp
  unfold cacheInsert at hp
  rcases List.mem_cons.mp hp with h | h
  · cases h; exact hv
  · exact hc p (List.mem_of_mem_filter h)

/-- The main branch never touches the fallback backends and returns the
cache it was given. -/
theorem download_track_main_quiet (o : Oracle) (track : TrackMetadata)
    (options : DownloadOptions) (cache2 : Cache) (best : SearchResult)
    (ev1 : List DownloadProgress) :
    (download_track_main o track options cache2 best ev1).log.scSearchInvoked
        = false
    ∧ (download_track_main o track options cache2 best ev1).log.ytdlpChecked
        = false
    ∧ (download_track_main o track options cache2 best ev1).log.ytdlpFetchInvoked
        = false
    ∧ (download_track_main o track options cache2 best ev1).cache = cache2 := by
  simp only [download_track_main]
  split
  · simp [RunLog.init]
  · simp [RunLog.init]
  · split
    · simp [RunLog.init]
    · simp only [download_track_tail]
      split <;> simp [RunLog.init]

/-- C9: with a well-formed cache the empty-candidate branch of
`download_track` is unreachable — the SoundCloud fallback search is never
issued and yt-dlp availability is never checked — and every run preserves
cache well-formedness, so the branch stays unreachable across a batch. -/
theorem C9_fallback_branch_unreachable (o : Oracle) (track : TrackMetadata)
    (options : DownloadOptions) (cache : Cache) (hc : cacheWF cache) :
    (download_track o track options cache).log.scSearchInvoked = false
    ∧ (download_track o track options cache).log.ytdlpChecked = false
    ∧ cacheWF (download_track o track options cache).cache := by
  simp only [download_track]
  cases hget : cacheGet cache (track.artist ++ " " ++ track.title) with
  | some cached =>
    have hne := cacheGet_wf cache _ cached hc hget
    cases cached with
    | nil => exact absurd rfl hne
    | cons best restl =>
      simp only [download_track_after_search]
      have hm := download_track_main_quiet o track options cache best
        [progressEvent track.id .SearchingSource 10
          "Searching for audio source..."]
      exact ⟨hm.1, hm.2.1, by rw [hm.2.2.2]; exact hc⟩
  | none =>
    cases hs : o.searchRes with
    | error e => exact ⟨rfl, rfl, hc⟩
    | ok results =>
      cases results with
      | nil => exact ⟨rfl, rfl, hc⟩
      | cons best restl =>
        simp only [List.isEmpty_cons, Bool.false_eq_true, if_false,
          download_track_after_search]
        have hins : cacheWF (cacheInsert cache
            (track.artist ++ " " ++ track.title) (best :: restl)) :=
          cacheInsert_wf cache _ _ hc (by simp)
        have hm := download_track_main_quiet o track options
          (cacheInsert cache (track.artist ++ " " ++ track.title)
            (best :: restl)) best
          [progressEvent track.id .SearchingSource 10
            "Searching for audio source..."]
        exact ⟨hm.1, hm.2.1, by rw [hm.2.2.2]; exact hins⟩

/-- C9 witness: a concrete run on an empty cache. -/
theorem C9_fallback_branch_unreachable_witness :
    (download_track happyOracle sampleTrack sampleOptions []).log.scSearchInvoked
      = false :=
  (C9_fallback_branch_unreachable happyOracle sampleTrack sampleOptions []
    (by intro p hp; cases hp)).1

/-- A fetch failure makes the main branch return that error with no
fallback activity. -/
theorem download_track_main_fetch_err (o : Oracle) (track : TrackMetadata)
    (options : DownloadOptions) (cache2 : Cache) (best : SearchResult)
    (ev1 : List DownloadProgress) (e : String)
    (hf : o.fetch = .earlyErr e ∨ o.fetch = .lateErr e) :
    (download_track_main o track options cache2 best ev1).result = .error e
    ∧ (download_track_main o track options cache2 best ev1).log.scSearchInvoked
        = false
    ∧ (download_track_main o track options cache2 best ev1).log.ytdlpChecked
        = false
    ∧ (download_track_main o track options cache2 best ev1).log.ytdlpFetchInvoked
        = false
    ∧ (download_track_main o track options cache2 best ev1).log.downloadInvoked
        = true := by
  simp only [download_track_main]
  rcases hf with hf | hf <;> rw [hf] <;> simp [RunLog.init]

/-- The oracle of a run whose search succeeds but whose audio fetch
subprocess fails after being spawned. -/
def fetchFailOracle : Oracle :=
  { happyOracle with fetch := .lateErr "yt-dlp failed with status: 1" }

/-- C1 counterexample: with one search candidate and a failing audio
fetch, `download_track` returns the fetch error while the SoundCloud
retry and the yt-dlp fallback were never invoked — the fallback chain is
not triggered by a fetch failure. -/
theorem C1_counterexample :
    (download_track fetchFailOracle sampleTrack sampleOptions []).result =
        .error "yt-dlp failed with status: 1"
    ∧ (download_track fetchFailOracle sampleTrack sampleOptions
        []).log.scSearchInvoked = false
    ∧ (download_track fetchFailOracle sampleTrack sampleOptions
        []).log.ytdlpChecked = false
    ∧ (download_track fetchFailOracle sampleTrack sampleOptions
        []).log.ytdlpFetchInvoked = false := by
  exact ⟨rfl, rfl, rfl, rfl⟩

/-- C1 (amended): for every track whose source search yields at least one
candidate, a failure of the audio fetch on the top-ranked candidate makes
`download_track` return that error immediately; the SoundCloud retry and
the generic yt-dlp fallback are never attempted (they live only in the
unreachable empty-candidate branch). -/
theorem C1_fetch_failure_no_fallback (o : Oracle) (track : TrackMetadata)
    (options : DownloadOptions) (cache : Cache) (e : String)
    (hfetch : o.fetch = .earlyErr e ∨ o.fetch = .lateErr e)
    (hsearch : (∃ best rest, cacheGet cache
        (track.artist ++ " " ++ track.title) = some (best :: rest))
      ∨ (cacheGet cache (track.artist ++ " " ++ track.title) = none
          ∧ ∃ best rest, o.searchRes = .ok (best :: rest))) :
    (download_track o track options cache).result = .error e
    ∧ (download_track o track options cache).log.scSearchInvoked = false
    ∧ (download_track o track options cache).log.ytdlpChecked = false
    ∧ (download_track o track options cache).log.ytdlpFetchInvoked = false
    ∧ (download_track o track options cache).log.downloadInvoked = true := by
  simp only [download_track]
  rcases hsearch with ⟨best, rest, hget⟩ | ⟨hget, best, rest, hok⟩
  · rw [hget]
    simp only [download_track_after_search]
    exact download_track_main_fetch_err o track options cache best _ e hfetch
  · rw [hget, hok]
    simp only [List.isEmpty_cons, Bool.false_eq_true, if_false,
      download_track_after_search]
    exact download_track_main_fetch_err o track options
      (cacheInsert cache (track.artist ++ " " ++ track.title)
        (best :: rest)) best _ e hfetch

/-- C1 witness: the amended theorem applied to the concrete failing-fetch
oracle. -/
theorem C1_fetch_failure_no_fallback_witness :
    (download_track fetchFailOracle sampleTrack sampleOptions []).result =
        .error "yt-dlp failed with status: 1"
    ∧ (download_track fetchFailOracle sampleTrack sampleOptions
        []).log.scSearchInvoked = false :=
  let h := C1_fetch_failure_no_fallback fetchFailOracle sampleTrack
    sampleOptions [] "yt-dlp failed with status: 1" (Or.inr rfl)
    (Or.inr ⟨rfl, sampleResult, [], rfl⟩)
  ⟨h.1, h.2.1⟩

/-- Main-branch behaviour when both enrichment halves fail but audio,
conversion and embedding succeed: the run completes and the embedder gets
`cover = none` together with an all-`none` lyrics result. -/
theorem download_track_main_enrichment_fail (o : Oracle)
    (track : TrackMetadata) (options : DownloadOptions) (cache2 : Cache)
    (best : SearchResult) (ev1 : List DownloadProgress) (cp ce se ue : String)
    (hcov : options.download_cover = true)
    (hlyr : options.download_lyrics = true)
    (hemb : options.embed_metadata = true)
    (hce : o.coverRes = .error ce)
    (hse : o.lyricsProviders.syncedRes = .error se)
    (hue : o.lyricsProviders.unsyncedRes = .error ue)
    (hfetch : o.fetch = .success)
    (hconv : convert_audio o (get_output_path track options) options = .ok cp)
    (hembedOk : o.embedRes = .ok ()) :
    (download_track_main o track options cache2 best ev1).result = .ok cp
    ∧ (download_track_main o track options cache2 best ev1).log.embedCall =
        some (EmbedCallArgs.mk cp none
          (some (LyricsResult.mk none none none none)))
    ∧ (download_track_main o track options cache2 best
        ev1).log.events.getLast? =
        some (progressEvent track.id .Completed 100
          "Download completed successfully!") := by
  simp only [download_track_main, hfetch, hconv, download_track_tail,
    download_lyrics_for_embedding, hcov, hlyr, hemb, hce, hse, hue,
    hembedOk, Bool.true_or, if_true, Option.isSome_none, Bool.and_false,
    Bool.false_eq_true, if_false]
  refine ⟨by trivial, by trivial, ?_⟩
  simp

/-- C3 counterexample oracle: cover provider and every lyrics provider
fail; everything else succeeds. -/
def enrichmentFailOracle : Oracle :=
  { happyOracle with
    coverRes := .error "cover not found"
    lyricsProviders := failProviders }

/-- C3 counterexample: when both enrichment halves fail, the track does
reach `Completed`, and the embedder is indeed called with `cover = None`
— but its lyrics argument is `Some` of an all-`None` `LyricsResult`, not
`None` as the claim states, because `download_lyrics_for_embedding`
returns `Ok` even when every provider fails. -/
theorem C3_counterexample :
    (download_track enrichmentFailOracle sampleTrack sampleOptions
        []).result = .ok "out/tracks/Artist - Song.mp3"
    ∧ (download_track enrichmentFailOracle sampleTrack sampleOptions
        []).log.embedCall =
        some (EmbedCallArgs.mk "out/tracks/Artist - Song.mp3" none
          (some (LyricsResult.mk none none none none)))
    ∧ (some (LyricsResult.mk none none none none) : Option LyricsResult) ≠
        none := by
  refine ⟨rfl, rfl, by simp⟩

/-- C3 (amended): cover-art and lyrics fetch failures never fail a track:
when both the cover provider and all lyrics providers fail,
`download_track` still completes provided audio download, conversion and
embedding succeed, and the embedder is called with `cover = None` and an
empty lyrics result (`Some` of a `LyricsResult` whose `synced` and
`unsynced` are both `None`) rather than `lyrics = None`. -/
theorem C3_enrichment_nonfatal (o : Oracle) (track : TrackMetadata)
    (options : DownloadOptions) (cache : Cache) (cp ce se ue : String)
    (hcov : options.download_cover = true)
    (hlyr : options.download_lyrics = true)
    (hemb : options.embed_metadata = true)
    (hce : o.coverRes = .error ce)
    (hse : o.lyricsProviders.syncedRes = .error se)
    (hue : o.lyricsProviders.unsyncedRes = .error ue)
    (hfetch : o.fetch = .success)
    (hconv : convert_audio o (get_output_path track options) options = .ok cp)
    (hembedOk : o.embedRes = .ok ())
    (hsearch : (∃ best rest, cacheGet cache
        (track.artist ++ " " ++ track.title) = some (best :: rest))
      ∨ (cacheGet cache (track.artist ++ " " ++ track.title) = none
          ∧ ∃ best rest, o.searchRes = .ok (best :: rest))) :
    (download_track o track options cache).result = .ok cp
    ∧ (download_track o track options cache).log.embedCall =
        some (EmbedCallArgs.mk cp none
          (some (LyricsResult.mk none none none none)))
    ∧ (download_track o track options cache).log.events.getLast? =
        some (progressEvent track.id .Completed 100
          "Download completed successfully!") := by
  simp only [download_track]
  rcases hsearch with ⟨best, rest, hget⟩ | ⟨hget, best, rest, hok⟩
  · rw [hget]
    simp only [download_track_after_search]
    exact download_track_main_enrichment_fail o track options cache best _
      cp ce se ue hcov hlyr hemb hce hse hue hfetch hconv hembedOk
  · rw [hget, hok]
    simp only [List.isEmpty_cons, Bool.false_eq_true, if_false,
      download_track_after_search]
    exact download_track_main_enrichment_fail o track options
      (cacheInsert cache (track.artist ++ " " ++ track.title)
        (best :: rest)) best _ cp ce se ue hcov hlyr hemb hce hse hue
      hfetch hconv hembedOk

/-- C3 witness: the amended theorem applied to the concrete
enrichment-failing oracle. -/
theorem C3_enrichment_nonfatal_witness :
    (download_track enrichmentFailOracle sampleTrack sampleOptions
        []).result = .ok "out/tracks/Artist - Song.mp3" :=
  (C3_enrichment_nonfatal enrichmentFailOracle sampleTrack sampleOptions []
    "out/tracks/Artist - Song.mp3" "cover not found" "no synced lyrics"
    "no lyrics" rfl rfl rfl rfl rfl rfl rfl rfl rfl
    (Or.inr ⟨rfl, sampleResult, [], rfl⟩)).1

/-- Position of each stage in the order claimed for a non-error run:
`Queued, (FetchingMetadata,) SearchingSource, DownloadingAudio,
ConvertingAudio, enrichment (DownloadingCover/DownloadingLyrics),
EmbeddingMetadata, Completed`. -/
def claimStageIdx : DownloadStage → Nat
  | .Queued => 0
  | .FetchingMetadata => 1
  | .SearchingSource => 2
  | .DownloadingAudio => 3
  | .ConvertingAudio => 4
  | .DownloadingCover => 5
  | .DownloadingLyrics => 5
  | .EmbeddingMetadata => 6
  | .Completed => 7
  | .Error => 8

/-- Is `f` non-decreasing along the list? -/
def monotoneBy (f : DownloadProgress → Nat) : List DownloadProgress → Bool
  | [] => true
  | [_] => true
  | a :: b :: t => if f a ≤ f b then monotoneBy f (b :: t) else false

/-- Did the cover fetch of this oracle succeed? -/
def coverFetchOk (o : Oracle) : Bool :=
  match o.coverRes with
  | .ok _ => true
  | .error _ => false

/-- Exact event trace of a successful main-branch run. -/
theorem download_track_main_trace (o : Oracle) (track : TrackMetadata)
    (options : DownloadOptions) (cache2 : Cache) (best : SearchResult)
    (ev1 : List DownloadProgress) (cp : String)
    (hfetch : o.fetch = .success)
    (hconv : convert_audio o (get_output_path track options) options = .ok cp)
    (hembed : options.embed_metadata = true → o.embedRes = .ok ()) :
    (download_track_main o track options cache2 best ev1).result = .ok cp
    ∧ (download_track_main o track options cache2 best ev1).log.events =
      ev1
      ++ [progressEvent track.id .DownloadingAudio 30
            ("Found " ++ best.platform ++ " source, downloading..."),
          progressEvent track.id .DownloadingAudio 60 "Downloading... 100.0%",
          progressEvent track.id .ConvertingAudio 60
            "Converting audio format..."]
      ++ (if options.download_cover || options.download_lyrics then
            [progressEvent track.id .DownloadingCover 80
              "Downloading cover art and lyrics for embedding..."] else [])
      ++ (if options.embed_metadata then
            [progressEvent track.id .EmbeddingMetadata 90
              "Embedding metadata..."] else [])
      ++ (if options.download_cover && coverFetchOk o then
            [progressEvent track.id .DownloadingCover 95
              "Saving cover art to covers folder..."] else [])
      ++ [progressEvent track.id .Completed 100
            "Download completed successfully!"] := by
  simp only [download_track_main, hfetch, hconv, download_track_tail]
  cases hdc : options.download_cover <;>
    cases hdl : options.download_lyrics <;>
      cases hde : options.embed_metadata <;>
        cases hcr : o.coverRes <;>
          simp [hdc, hdl, hde, hembed, hcr, coverFetchOk, RunLog.init,
            List.append_assoc]

/-- C2 counterexample: a fully successful run with cover download, lyrics
and embedding all enabled completes, yet its emitted stages are not
monotone in the claimed order — a `DownloadingCover` event (progress
0.95, the cover-art folder save) is emitted after `EmbeddingMetadata`. -/
theorem C2_counterexample :
    (download_track happyOracle sampleTrack sampleOptions []).result =
        .ok "out/tracks/Artist - Song.mp3"
    ∧ monotoneBy (fun ev => claimStageIdx ev.stage)
        (download_track happyOracle sampleTrack sampleOptions
          []).log.events = false := by
  exact ⟨rfl, rfl⟩

/-- C2 (amended): for every single-track run of `download_track` through
the non-empty-candidate branch that does not end in `Error`, the emitted
events are exactly `SearchingSource (0.1), DownloadingAudio (0.3),
DownloadingAudio (0.6), ConvertingAudio (0.6), [DownloadingCover (0.8) if
enrichment was requested], [EmbeddingMetadata (0.9) if embedding was
requested], [DownloadingCover (0.95) if a fetched cover is saved to the
covers folder — this one event follows EmbeddingMetadata, the only
departure from the claimed stage order], Completed (1.0)`, and the
progress fractions are non-decreasing. -/
theorem C2_stage_sequence (o : Oracle) (track : TrackMetadata)
    (options : DownloadOptions) (cache : Cache) (best : SearchResult)
    (rest : List SearchResult) (cp : String)
    (hsearch : cacheGet cache (track.artist ++ " " ++ track.title) =
        some (best :: rest)
      ∨ (cacheGet cache (track.artist ++ " " ++ track.title) = none
          ∧ o.searchRes = .ok (best :: rest)))
    (hfetch : o.fetch = .success)
    (hconv : convert_audio o (get_output_path track options) options = .ok cp)
    (hembed : options.embed_metadata = true → o.embedRes = .ok ()) :
    (download_track o track options cache).result = .ok cp
    ∧ (download_track o track options cache).log.events =
      [progressEvent track.id .SearchingSource 10
        "Searching for audio source...",
       progressEvent track.id .DownloadingAudio 30
        ("Found " ++ best.platform ++ " source, downloading..."),
       progressEvent track.id .DownloadingAudio 60 "Downloading... 100.0%",
       progressEvent track.id .ConvertingAudio 60
        "Converting audio format..."]
      ++ (if options.download_cover || options.download_lyrics then
            [progressEvent track.id .DownloadingCover 80
              "Downloading cover art and lyrics for embedding..."] else [])
      ++ (if options.embed_metadata then
            [progressEvent track.id .EmbeddingMetadata 90
              "Embedding metadata..."] else [])
      ++ (if options.download_cover && coverFetchOk o then
            [progressEvent track.id .DownloadingCover 95
              "Saving cover art to covers folder..."] else [])
      ++ [progressEvent track.id .Completed 100
            "Download completed successfully!"]
    ∧ monotoneBy (fun ev => ev.progress)
        (download_track o track options cache).log.events = true := by
  have key :
      (download_track o track options cache).result = .ok cp
      ∧ (download_track o track options cache).log.events =
        [progressEvent track.id .SearchingSource 10
          "Searching for audio source..."]
        ++ [progressEvent track.id .DownloadingAudio 30
              ("Found " ++ best.platform ++ " source, downloading..."),
            progressEvent track.id .DownloadingAudio 60
              "Downloading... 100.0%",
            progressEvent track.id .ConvertingAudio 60
              "Converting audio format..."]
        ++ (if options.download_cover || options.download_lyrics then
              [progressEvent track.id .DownloadingCover 80
                "Downloading cover art and lyrics for embedding..."] else [])
        ++ (if options.embed_metadata then
              [progressEvent track.id .EmbeddingMetadata 90
                "Embedding metadata..."] else [])
        ++ (if options.download_cover && coverFetchOk o then
              [progressEvent track.id .DownloadingCover 95
                "Saving cover art to covers folder..."] else [])
        ++ [progressEvent track.id .Completed 100
              "Download completed successfully!"] := by
    simp only [download_track]
    rcases hsearch with hget | ⟨hget, hok⟩
    · rw [hget]
      simp only [download_track_after_search]
      exact download_track_main_trace o track options cache best _ cp
        hfetch hconv hembed
    · rw [hget, hok]
      simp only [List.isEmpty_cons, Bool.false_eq_true, if_false,
        download_track_after_search]
      exact download_track_main_trace o track options
        (cacheInsert cache (track.artist ++ " " ++ track.title)
          (best :: rest)) best _ cp hfetch hconv hembed
  refine ⟨key.1, by rw [key.2]; simp, ?_⟩
  rw [key.2]
  cases hdc : options.download_cover <;>
    cases hdl : options.download_lyrics <;>
      cases hde : options.embed_metadata <;>
        cases hcf : coverFetchOk o <;>
          simp [monotoneBy, progressEvent]

/-- C2 witness: the amended theorem applied to the fully successful
concrete run. -/
theorem C2_stage_sequence_witness :
    (download_track happyOracle sampleTrack sampleOptions []).result =
        .ok "out/tracks/Artist - Song.mp3"
    ∧ monotoneBy (fun ev => ev.progress)
        (download_track happyOracle sampleTrack sampleOptions
          []).log.events = true :=
  let h := C2_stage_sequence happyOracle sampleTrack sampleOptions []
    sampleResult [] "out/tracks/Artist - Song.mp3"
    (Or.inr ⟨rfl, rfl⟩) rfl rfl (fun _ => rfl)
  ⟨h.1, h.2.2⟩

/-- Every character `natDigitsAux` produces is a decimal digit
character. -/
theorem natDigitsAux_mem (fuel n : Nat) :
    ∀ c ∈ natDigitsAux fuel n, ∃ d, d < 10 ∧ c = Char.ofNat (48 + d) := by
  induction fuel generalizing n with
  | zero =>
    intro c hc
    simp [natDigitsAux] at hc
    exact ⟨n % 10, Nat.mod_lt n (by omega), hc⟩
  | succ fuel ih =>
    intro c hc
    simp only [natDigitsAux] at hc
    split at hc
    · simp at hc
      exact ⟨n, by omega, hc⟩
    · rcases List.mem_append.mp hc with h | h
      · exact ih (n / 10) c h
      · simp at h
        exact ⟨n % 10, Nat.mod_lt n (by omega), h⟩

/-- Every character of `natDigits n` is a decimal digit character. -/
theorem natDigits_mem (n : Nat) :
    ∀ c ∈ natDigits n, ∃ d, d < 10 ∧ c = Char.ofNat (48 + d) :=
  natDigitsAux_mem n n

/-- Every character of `fmt2 n` is a decimal digit character. -/
theorem fmt2_mem (n : Nat) :
    ∀ c ∈ fmt2 n, ∃ d, d < 10 ∧ c = Char.ofNat (48 + d) := by
  intro c hc
  unfold fmt2 at hc
  split at hc
  · rcases List.mem_cons.mp hc with h | h
    · exact ⟨0, by omega, h⟩
    · exact natDigits_mem n c h
  · exact natDigits_mem n c hc

/-- The properties of a decimal digit character the round-trip proof
needs. -/
theorem digitChar_props (d : Nat) (hd : d < 10) :
    (Char.ofNat (48 + d)).isDigit = true
    ∧ (Char.ofNat (48 + d)).toNat - 48 = d
    ∧ Char.ofNat (48 + d) ≠ ']'
    ∧ Char.ofNat (48 + d) ≠ ':'
    ∧ Char.ofNat (48 + d) ≠ '.'
    ∧ Char.ofNat (48 + d) ≠ '\n'
    ∧ Char.ofNat (48 + d) ≠ '\r'
    ∧ Char.ofNat (48 + d) ≠ '+'
    ∧ rustIsWhitespace (Char.ofNat (48 + d)) = false := by
  interval_cases d <;> exact ⟨rfl, rfl, by decide, by decide, by decide,
    by decide, by decide, by decide, rfl⟩

/-- `natDigitsAux` never returns the empty list. -/
theorem natDigitsAux_ne_nil (fuel n : Nat) : natDigitsAux fuel n ≠ [] := by
  cases fuel with
  | zero => simp [natDigitsAux]
  | succ fuel =>
    unfold natDigitsAux
    split
    · simp
    · simp

/-- Parsing a concatenation parses the pieces in sequence. -/
theorem parseU32Digits_append (a b : List Char) (acc : Nat) :
    parseU32Digits (a ++ b) acc =
      match parseU32Digits a acc with
      | some v => parseU32Digits b v
      | none => none := by
  induction a generalizing acc with
  | nil => rfl
  | cons c t ih =>
    simp only [List.cons_append, parseU32Digits]
    split
    · split
      · exact ih _
      · rfl
    · rfl

/-- Parsing the digit expansion of `n < 2^32` recovers `n`. -/
theorem parseU32Digits_natDigitsAux (n : Nat) (hn : n < 4294967296) :
    ∀ fuel, n ≤ fuel → parseU32Digits (natDigitsAux fuel n) 0 = some n := by
  induction n using Nat.strong_induction_on with
  | _ n ih =>
    intro fuel hfuel
    cases fuel with
    | zero =>
      have h0 : n = 0 := by omega
      subst h0
      decide
    | succ fuel =>
      by_cases h10 : n < 10
      · have hp := digitChar_props n h10
        simp only [natDigitsAux, if_pos h10, parseU32Digits, hp.1,
          if_true, hp.2.1]
        have hb : 10 * 0 + n < 4294967296 := by omega
        simp only [if_pos hb]
        simp [parseU32Digits]
      · have hlt : n / 10 < n := Nat.div_lt_self (by omega) (by omega)
        have hub : n / 10 < 4294967296 := by omega
        have hfl : n / 10 ≤ fuel := by omega
        simp only [natDigitsAux, if_neg h10]
        rw [parseU32Digits_append]
        rw [ih (n / 10) hlt hub fuel hfl]
        have hp := digitChar_props (n % 10) (Nat.mod_lt n (by omega))
        simp only [parseU32Digits, hp.1, if_true, hp.2.1]
        have heq : 10 * (n / 10) + n % 10 = n := by omega
        rw [heq]
        simp [parseU32Digits, hn]

/-- `rustParseU32` on a non-empty list of digit characters is a plain
digit fold. -/
theorem rustParseU32_digitList (l : List Char)
    (hne : l ≠ [])
    (hd : ∀ c ∈ l, ∃ d, d < 10 ∧ c = Char.ofNat (48 + d)) :
    rustParseU32 l = parseU32Digits l 0 := by
  cases l with
  | nil => exact absurd rfl hne
  | cons c t =>
    obtain ⟨d, hd10, hc⟩ := hd c (List.mem_cons_self c t)
    have hplus : c ≠ '+' := hc ▸ (digitChar_props d hd10).2.2.2.2.2.2.2.1
    simp [rustParseU32, hplus]

/-- `rustParseU32` inverts `natDigits` below `2^32`. -/
theorem rustParseU32_natDigits (n : Nat) (hn : n < 4294967296) :
    rustParseU32 (natDigits n) = some n := by
  unfold natDigits
  rw [rustParseU32_digitList _ (natDigitsAux_ne_nil n n)
    (natDigitsAux_mem n n)]
  exact parseU32Digits_natDigitsAux n hn n (Nat.le_refl n)

/-- `rustParseU32` inverts `fmt2` below `2^32`. -/
theorem rustParseU32_fmt2 (n : Nat) (hn : n < 4294967296) :
    rustParseU32 (fmt2 n) = some n := by
  unfold fmt2
  split
  · rw [rustParseU32_digitList _ (by simp) ?digits]
    case digits =>
      intro c hc
      rcases List.mem_cons.mp hc with h | h
      · exact ⟨0, by omega, h⟩
      · exact natDigits_mem n c h
    have h0 : ('0' : Char).isDigit = true := by decide
    simp only [parseU32Digits, h0, if_true]
    have hv : 10 * 0 + (('0' : Char).toNat - 48) = 0 := by decide
    rw [hv]
    simp only [show (0 : Nat) < 4294967296 by omega, if_true]
    exact parseU32Digits_natDigitsAux n hn n (Nat.le_refl n)
  · exact rustParseU32_natDigits n hn

/-- Splitting a separator-free list yields one segment. -/
theorem splitChar_sepFree (sep : Char) (a : List Char) (h : sep ∉ a) :
    splitChar sep a = [a] := by
  induction a with
  | nil => rfl
  | cons c t ih =>
    have hc : ¬ c = sep := fun he => h (he ▸ List.mem_cons_self c t)
    have ht : sep ∉ t := fun hm => h (List.mem_cons_of_mem c hm)
    simp only [splitChar, if_neg hc, ih ht]

/-- Splitting at the first separator occurrence. -/
theorem splitChar_append (sep : Char) (a b : List Char) (h : sep ∉ a) :
    splitChar sep (a ++ sep :: b) = a :: splitChar sep b := by
  induction a with
  | nil => simp [splitChar]
  | cons c t ih =>
    have hc : ¬ c = sep := fun he => h (he ▸ List.mem_cons_self c t)
    have ht : sep ∉ t := fun hm => h (List.mem_cons_of_mem c hm)
    simp only [List.cons_append, splitChar, if_neg hc, List.append_eq]
    rw [ih ht]

/-- `dropLeadingWs` is the identity when the head is not whitespace. -/
theorem dropLeadingWs_eq_self (l : List Char)
    (h : ∀ c, l.head? = some c → rustIsWhitespace c = false) :
    dropLeadingWs l = l := by
  cases l with
  | nil => rfl
  | cons c t => simp [dropLeadingWs, h c rfl]

/-- `rustTrim` is the identity when neither end is whitespace. -/
theorem rustTrim_eq_self (l : List Char)
    (hhead : ∀ c, l.head? = some c → rustIsWhitespace c = false)
    (hlast : ∀ c, l.getLast? = some c → rustIsWhitespace c = false) :
    rustTrim l = l := by
  unfold rustTrim
  rw [dropLeadingWs_eq_self l hhead]
  rw [dropLeadingWs_eq_self l.reverse ?hrev]
  · exact List.reverse_reverse l
  case hrev =>
    intro c hc
    apply hlast
    rw [← List.head?_reverse]
    exact hc

/-- `stripCr` is the identity when the last character is not a carriage
return. -/
theorem stripCr_eq_self (l : List Char)
    (h : ∀ c, l.getLast? = some c → c ≠ '\r') : stripCr l = l := by
  unfold stripCr
  split
  · rename_i t heq
    exfalso
    have hlast : l.getLast? = some '\r' := by
      rw [← List.head?_reverse, heq]
      rfl
    exact h '\r' hlast rfl
  · rfl

/-- The first `]` of `a ++ ']' :: b` with `]`-free `a` sits at index
`a.length`. -/
theorem findIdx_bracket (a b : List Char) (h : ']' ∉ a) :
    List.findIdx? (fun c => c = ']') (a ++ ']' :: b) = some a.length := by
  induction a with
  | nil => simp [List.findIdx?_cons]
  | cons c t ih =>
    have hc : ¬ (c = ']') := fun he => h (he ▸ List.mem_cons_self c t)
    have ht : ']' ∉ t := fun hm => h (List.mem_cons_of_mem c hm)
    simp only [List.cons_append, List.findIdx?_cons, decide_eq_true_eq,
      if_neg hc, List.findIdx?_succ]
    rw [ih ht]
    rfl

/-- Chunk decomposition of `splitChar` over newline-terminated bodies. -/
theorem splitChar_chunks (bodies : List (List Char))
    (h : ∀ b ∈ bodies, '\n' ∉ b) :
    splitChar '\n' ((bodies.map (fun b => b ++ ['\n'])).flatten) =
      bodies ++ [[]] := by
  induction bodies with
  | nil => rfl
  | cons b t ih =>
    have hb : '\n' ∉ b := h b (List.mem_cons_self b t)
    have ht : ∀ x ∈ t, '\n' ∉ x := fun x hx => h x (List.mem_cons_of_mem b hx)
    simp only [List.map_cons, List.flatten_cons, List.append_assoc,
      List.singleton_append]
    rw [splitChar_append '\n' b _ hb, ih ht]
    rfl

/-- Characters `fmt2` can produce are none of the LRC delimiters. -/
theorem fmt2_no (n : Nat) :
    ']' ∉ fmt2 n ∧ ':' ∉ fmt2 n ∧ '.' ∉ fmt2 n ∧ '\n' ∉ fmt2 n := by
  refine ⟨?_, ?_, ?_, ?_⟩ <;> intro hm
  · obtain ⟨d, hd, he⟩ := fmt2_mem n _ hm
    exact (digitChar_props d hd).2.2.1 he.symm
  · obtain ⟨d, hd, he⟩ := fmt2_mem n _ hm
    exact (digitChar_props d hd).2.2.2.1 he.symm
  · obtain ⟨d, hd, he⟩ := fmt2_mem n _ hm
    exact (digitChar_props d hd).2.2.2.2.1 he.symm
  · obtain ⟨d, hd, he⟩ := fmt2_mem n _ hm
    exact (digitChar_props d hd).2.2.2.2.2.1 he.symm

/-- `parse_timestamp` inverts the `[MM:SS.CC]` code of a `u32`
millisecond timestamp, recovering it rounded down to the centisecond. -/
theorem parse_timestamp_code (ts : Nat) (hts : ts < 4294967296) :
    parse_timestamp (fmt2 (ts / 60000) ++ ':' ::
      (fmt2 ((ts % 60000) / 1000) ++ '.' :: fmt2 ((ts % 1000) / 10))) =
      some (ts - ts % 10) := by
  have hmm : ts / 60000 < 4294967296 := by omega
  have hss : (ts % 60000) / 1000 < 4294967296 := by omega
  have hcc : (ts % 1000) / 10 < 4294967296 := by omega
  have hsplit1 : splitChar ':' (fmt2 (ts / 60000) ++ ':' ::
      (fmt2 ((ts % 60000) / 1000) ++ '.' :: fmt2 ((ts % 1000) / 10))) =
      [fmt2 (ts / 60000),
       fmt2 ((ts % 60000) / 1000) ++ '.' :: fmt2 ((ts % 1000) / 10)] := by
    rw [splitChar_append ':' _ _ (fmt2_no (ts / 60000)).2.1]
    rw [splitChar_sepFree ':' _ ?nosep]
    case nosep =>
      intro hm
      rcases List.mem_append.mp hm with h | h
      · exact (fmt2_no ((ts % 60000) / 1000)).2.1 h
      · rcases List.mem_cons.mp h with h | h
        · exact absurd h.symm (by decide)
        · exact (fmt2_no ((ts % 1000) / 10)).2.1 h
  have hsplit2 : splitChar '.' (fmt2 ((ts % 60000) / 1000) ++ '.' ::
      fmt2 ((ts % 1000) / 10)) =
      [fmt2 ((ts % 60000) / 1000), fmt2 ((ts % 1000) / 10)] := by
    rw [splitChar_append '.' _ _ (fmt2_no ((ts % 60000) / 1000)).2.2.1]
    rw [splitChar_sepFree '.' _ (fmt2_no ((ts % 1000) / 10)).2.2.1]
  unfold parse_timestamp
  rw [hsplit1]
  simp only [hsplit2, rustParseU32_fmt2 _ hmm, rustParseU32_fmt2 _ hss,
    rustParseU32_fmt2 _ hcc, Option.bind_some, List.headD_cons,
    List.get?_cons_succ, List.get?_cons_zero, Option.getD_some]
  have harith : ts / 60000 * 60000 + ts % 60000 / 1000 * 1000 +
      ts % 1000 / 10 * 10 = ts - ts % 10 := by omega
  simp [Option.bind, harith]

/-- The `MM:SS.CC` code of a timestamp inside an LRC bracket. -/
def lrcCode (ts : Nat) : List Char :=
  fmt2 (ts / 60000) ++ ':' ::
    (fmt2 ((ts % 60000) / 1000) ++ '.' :: fmt2 ((ts % 1000) / 10))

/-- A serialized LRC line without its trailing newline. -/
def serBody (line : LyricsLine) : List Char :=
  ('[' :: lrcCode line.timestamp) ++ ']' :: line.text.data

/-- `serializeLrcLine` is `serBody` plus a newline. -/
theorem serializeLrcLine_eq (line : LyricsLine) :
    serializeLrcLine line = serBody line ++ ['\n'] := by
  simp [serializeLrcLine, serBody, lrcCode]

/-- `parse_timestamp` inverts `lrcCode`. -/
theorem parse_timestamp_lrcCode (ts : Nat) (hts : ts < 4294967296) :
    parse_timestamp (lrcCode ts) = some (ts - ts % 10) :=
  parse_timestamp_code ts hts

/-- The last element of a cons list exists. -/
theorem getLast?_cons_isSome (x : Char) (b : List Char) :
    ∃ v, (x :: b).getLast? = some v := by
  induction b generalizing x with
  | nil => exact ⟨x, rfl⟩
  | cons y ys ih =>
    rw [List.getLast?_cons_cons]
    exact ih y

/-- Appending in front does not change the last element. -/
theorem getLast?_append_cons (a : List Char) (x : Char) (b : List Char) :
    (a ++ x :: b).getLast? = (x :: b).getLast? := by
  rw [List.getLast?_append]
  obtain ⟨v, hv⟩ := getLast?_cons_isSome x b
  rw [hv]
  rfl

/-- The closing bracket never occurs in the bracketed timestamp prefix of
a serialized line. -/
theorem lrcCode_no_bracket (ts : Nat) : ']' ∉ ('[' :: lrcCode ts) := by
  intro hm
  rcases List.mem_cons.mp hm with h | h
  · exact absurd h.symm (by decide)
  · unfold lrcCode at h
    rcases List.mem_append.mp h with h | h
    · exact (fmt2_no _).1 h
    · rcases List.mem_cons.mp h with h | h
      · exact absurd h.symm (by decide)
      · rcases List.mem_append.mp h with h | h
        · exact (fmt2_no _).1 h
        · rcases List.mem_cons.mp h with h | h
          · exact absurd h.symm (by decide)
          · exact (fmt2_no _).1 h

/-- One loop step of `parse_lrc_content` on a serialized line whose text
does not end in whitespace: the line parses back to its timestamp rounded
down to the centisecond, with the text unchanged. -/
theorem parseLrcLines_cons_ser (line : LyricsLine)
    (rest : List (List Char))
    (hts : line.timestamp < 4294967296)
    (htrail : ∀ c, line.text.data.getLast? = some c →
      rustIsWhitespace c = false) :
    parseLrcLines (serBody line :: rest) =
      match parseLrcLines rest with
      | .ok ls => .ok (LyricsLine.mk
          (line.timestamp - line.timestamp % 10) line.text :: ls)
      | .error e => .error e := by
  have htrim : rustTrim (serBody line) = serBody line := by
    apply rustTrim_eq_self
    · intro c hc
      have : (serBody line).head? = some '[' := rfl
      rw [this] at hc
      cases hc
      decide
    · intro c hc
      rw [show serBody line = ('[' :: lrcCode line.timestamp) ++
        ']' :: line.text.data from rfl, getLast?_append_cons] at hc
      cases htext : line.text.data with
      | nil =>
        rw [htext] at hc
        cases hc
        decide
      | cons x xs =>
        rw [htext, List.getLast?_cons_cons] at hc
        exact htrail c (by rw [htext]; exact hc)
  have hempty : (serBody line).isEmpty = false := rfl
  have hidx : List.findIdx? (fun c => c = ']') (serBody line) =
      some ((lrcCode line.timestamp).length + 1) := by
    unfold serBody
    rw [findIdx_bracket _ _ (lrcCode_no_bracket line.timestamp)]
    rfl
  have hdrop1 : (serBody line).drop 1 =
      lrcCode line.timestamp ++ ']' :: line.text.data := rfl
  have htake : (lrcCode line.timestamp ++ ']' :: line.text.data).take
      ((lrcCode line.timestamp).length + 1 - 1) =
      lrcCode line.timestamp := by
    rw [Nat.add_sub_cancel]
    exact List.take_left _ _
  have hdrop2 : (serBody line).drop
      ((lrcCode line.timestamp).length + 1 + 1) = line.text.data := by
    rw [show serBody line = (('[' :: lrcCode line.timestamp) ++ [']']) ++
      line.text.data by simp [serBody]]
    rw [List.drop_left' ?hl]
    case hl => simp
  simp only [parseLrcLines, htrim, hempty, Bool.false_eq_true, if_false,
    hidx]
  simp only [Nat.add_eq_zero, Nat.succ_ne_zero, and_false, if_false,
    hdrop1, htake, hdrop2, parse_timestamp_lrcCode line.timestamp hts]
  cases hrest : parseLrcLines rest with
  | ok ls => rfl
  | error e => rfl

/-- Characters of `intDigits`: a minus sign or a digit. -/
theorem intDigits_mem (i : Int) :
    ∀ c ∈ intDigits i, c = '-' ∨ ∃ d, d < 10 ∧ c = Char.ofNat (48 + d) := by
  unfold intDigits
  split
  · intro c hc
    rcases List.mem_cons.mp hc with h | h
    · exact Or.inl h
    · exact Or.inr (natDigits_mem _ c h)
  · intro c hc
    exact Or.inr (natDigits_mem _ c hc)

/-- The serialized `[offset:<ms>]` header line, without its newline. -/
def offsetBody (i : Int) : List Char :=
  "[offset:".data ++ intDigits i ++ [']']

/-- The bracketed prefix of the offset header contains no `]`. -/
theorem offsetBody_no_bracket (i : Int) :
    ']' ∉ ("[offset:".data ++ intDigits i) := by
  intro hm
  rcases List.mem_append.mp hm with h | h
  · exact absurd h (by decide)
  · rcases intDigits_mem i _ h with h2 | ⟨d, hd, he⟩
    · exact absurd h2 (by decide)
    · exact (digitChar_props d hd).2.2.1 he.symm

/-- The offset header never parses as a timestamp. -/
theorem parse_timestamp_offset (i : Int) :
    parse_timestamp ("offset:".data ++ intDigits i) = none := by
  have hsplit : splitChar ':' ("offset:".data ++ intDigits i) =
      ["offset".data, intDigits i] := by
    rw [show ("offset:".data ++ intDigits i) =
      "offset".data ++ ':' :: intDigits i from rfl]
    rw [splitChar_append ':' _ _ (by decide)]
    rw [splitChar_sepFree ':' _ ?nosep]
    case nosep =>
      intro hm
      rcases intDigits_mem i _ hm with h | ⟨d, hd, he⟩
      · exact absurd h (by decide)
      · exact (digitChar_props d hd).2.2.2.1 he.symm
  unfold parse_timestamp
  rw [hsplit]
  rfl

/-- The offset header line is skipped by the parsing loop. -/
theorem parseLrcLines_offset_skip (i : Int) (rest : List (List Char)) :
    parseLrcLines (offsetBody i :: rest) = parseLrcLines rest := by
  have hform : offsetBody i = ("[offset:".data ++ intDigits i) ++
      ']' :: [] := by simp [offsetBody]
  have htrim : rustTrim (offsetBody i) = offsetBody i := by
    apply rustTrim_eq_self
    · intro c hc
      have : (offsetBody i).head? = some '[' := rfl
      rw [this] at hc
      cases hc
      decide
    · intro c hc
      rw [show offsetBody i = ("[offset:".data ++ intDigits i) ++ [']']
        from hform, List.getLast?_concat] at hc
      cases hc
      decide
  have hempty : (offsetBody i).isEmpty = false := rfl
  have hidx : List.findIdx? (fun c => c = ']') (offsetBody i) =
      some ("[offset:".data ++ intDigits i).length := by
    rw [hform, findIdx_bracket _ _ (offsetBody_no_bracket i)]
  have hlen : ("[offset:".data ++ intDigits i).length =
      (intDigits i).length + 8 := by
    simp [List.length_append]
  have htake : ((offsetBody i).drop 1).take
      (("[offset:".data ++ intDigits i).length - 1) =
      "offset:".data ++ intDigits i := by
    rw [show (offsetBody i).drop 1 =
      ("offset:".data ++ intDigits i) ++ [']'] from rfl]
    rw [List.take_left' ?hl]
    case hl => simp [List.length_append]
  simp only [parseLrcLines, htrim, hempty, Bool.false_eq_true, if_false,
    hidx]
  rw [if_neg (by omega : ¬ ("[offset:".data ++ intDigits i).length = 0)]
  rw [htake, parse_timestamp_offset i]

/-- The parsing loop recovers every serialized line in order. -/
theorem parseLrcLines_serialized (lines : List LyricsLine)
    (hts : ∀ l ∈ lines, l.timestamp < 4294967296)
    (htrail : ∀ l ∈ lines, ∀ c, l.text.data.getLast? = some c →
      rustIsWhitespace c = false) :
    parseLrcLines (lines.map serBody) =
      .ok (lines.map fun l =>
        LyricsLine.mk (l.timestamp - l.timestamp % 10) l.text) := by
  induction lines with
  | nil => rfl
  | cons l t ih =>
    rw [List.map_cons, parseLrcLines_cons_ser l _
      (hts l (List.mem_cons_self l t))
      (htrail l (List.mem_cons_self l t))]
    rw [ih (fun x hx => hts x (List.mem_cons_of_mem l hx))
      (fun x hx => htrail x (List.mem_cons_of_mem l hx))]
    rfl

/-- No newline occurs in a serialized line body whose text is
newline-free. -/
theorem serBody_no_nl (line : LyricsLine)
    (hnl : '\n' ∉ line.text.data) : '\n' ∉ serBody line := by
  intro hm
  unfold serBody at hm
  rcases List.mem_append.mp hm with h | h
  · rcases List.mem_cons.mp h with h | h
    · exact absurd h (by decide)
    · unfold lrcCode at h
      rcases List.mem_append.mp h with h | h
      · exact (fmt2_no _).2.2.2 h
      · rcases List.mem_cons.mp h with h | h
        · exact absurd h (by decide)
        · rcases List.mem_append.mp h with h | h
          · exact (fmt2_no _).2.2.2 h
          · rcases List.mem_cons.mp h with h | h
            · exact absurd h (by decide)
            · exact (fmt2_no _).2.2.2 h
  · rcases List.mem_cons.mp h with h | h
    · exact absurd h (by decide)
    · exact hnl h

/-- No newline occurs in the offset header body. -/
theorem offsetBody_no_nl (i : Int) : '\n' ∉ offsetBody i := by
  intro hm
  unfold offsetBody at hm
  rcases List.mem_append.mp hm with h | h
  · rcases List.mem_append.mp h with h | h
    · exact absurd h (by decide)
    · rcases intDigits_mem i _ h with h2 | ⟨d, hd, he⟩
      · exact absurd h2 (by decide)
      · exact (digitChar_props d hd).2.2.2.2.2.1 he.symm
  · exact absurd h (by decide)

/-- A serialized line body does not end in a carriage return. -/
theorem serBody_last_not_cr (line : LyricsLine)
    (hcr : '\r' ∉ line.text.data) :
    ∀ c, (serBody line).getLast? = some c → c ≠ '\r' := by
  intro c hc
  rw [show serBody line = ('[' :: lrcCode line.timestamp) ++
    ']' :: line.text.data from rfl, getLast?_append_cons] at hc
  cases htext : line.text.data with
  | nil =>
    rw [htext] at hc
    cases hc
    decide
  | cons x xs =>
    rw [htext, List.getLast?_cons_cons] at hc
    intro hcr2
    subst hcr2
    have hmem : '\r' ∈ x :: xs := List.mem_of_mem_getLast? (by rw [hc]; rfl)
    exact hcr (htext ▸ hmem)

/-- `rustLines` of the serialized LRC content is exactly the list of line
bodies. -/
theorem rustLines_serialized (bodies : List (List Char))
    (hnl : ∀ b ∈ bodies, '\n' ∉ b)
    (hcr : ∀ b ∈ bodies, ∀ c, b.getLast? = some c → c ≠ '\r') :
    rustLines ((bodies.map (fun b => b ++ ['\n'])).flatten) = bodies := by
  unfold rustLines
  rw [splitChar_chunks bodies hnl]
  dsimp only
  rw [List.getLast?_concat, if_pos rfl, List.dropLast_concat]
  rw [List.map_congr_left (fun b hb => stripCr_eq_self b (hcr b hb))]
  exact List.map_id bodies

/-- Decomposition of the serializer output into newline-terminated
bodies: the optional offset header followed by one body per lyric
line. -/
theorem convert_to_lrc_data (lines : List LyricsLine) (offset : Int)
    (source : String) :
    (convert_to_lrc ⟨lines, offset, source⟩).data =
      ((((if offset ≠ 0 then [offsetBody offset] else []) ++
          lines.map serBody).map (fun b => b ++ ['\n'])).flatten) := by
  show ((if offset ≠ 0 then
      "[offset:".data ++ intDigits offset ++ [']', '\n'] else []) ++
      (lines.map serializeLrcLine).flatten) = _
  by_cases hoff : offset = 0
  · simp only [hoff, ne_eq, not_true_eq_false, if_false,
      List.nil_append, List.map_nil]
    rw [List.map_congr_left (fun l _ => serializeLrcLine_eq l)]
    simp [List.map_map, Function.comp_def]
  · simp only [ne_eq, hoff, not_false_eq_true, if_true]
    rw [List.map_congr_left (fun l _ => serializeLrcLine_eq l)]
    simp [List.map_map, Function.comp_def, offsetBody,
      List.append_assoc]

/-- C8 counterexample: the round-trip fails as universally stated — an
empty line list serializes to content that parses to an error rather than
the empty list, and a text with trailing whitespace (here `"a "`) comes
back trimmed (`"a"`), so the recovered (timestamp, text) pairs differ
from the originals. -/
theorem C8_counterexample :
    parse_lrc_content (convert_to_lrc ⟨[], 0, "src"⟩) =
      .error "No valid LRC lines found"
    ∧ parse_lrc_content (convert_to_lrc
        ⟨[LyricsLine.mk 0 "a "], 0, "src"⟩) =
      .ok [LyricsLine.mk 0 "a"]
    ∧ ("a" : String) ≠ "a " := by
  exact ⟨rfl, rfl, by decide⟩

/-- C8 (amended): for every non-empty list of synced lyric lines whose
timestamps fit in `u32` and whose texts contain no newline or carriage
return and do not end in whitespace, serializing with `convert_to_lrc`
(any offset, any source) and parsing with `parse_lrc_content` yields the
same ordered lines with each text unchanged and each timestamp rounded
down to the centisecond — within 10 ms of the original. -/
theorem C8_lrc_round_trip (lines : List LyricsLine) (offset : Int)
    (source : String)
    (hne : lines ≠ [])
    (hts : ∀ l ∈ lines, l.timestamp < 4294967296)
    (hnl : ∀ l ∈ lines, '\n' ∉ l.text.data)
    (hcr : ∀ l ∈ lines, '\r' ∉ l.text.data)
    (htrail : ∀ l ∈ lines, ∀ c, l.text.data.getLast? = some c →
      rustIsWhitespace c = false) :
    parse_lrc_content (convert_to_lrc ⟨lines, offset, source⟩) =
      .ok (lines.map fun l =>
        LyricsLine.mk (l.timestamp - l.timestamp % 10) l.text)
    ∧ ∀ l ∈ lines,
        l.timestamp - (l.timestamp - l.timestamp % 10) < 10 := by
  constructor
  · have hie : (lines.map fun l =>
        LyricsLine.mk (l.timestamp - l.timestamp % 10) l.text).isEmpty =
        false := by
      cases lines with
      | nil => exact absurd rfl hne
      | cons a b => rfl
    unfold parse_lrc_content
    rw [convert_to_lrc_data lines offset source]
    rw [rustLines_serialized _ ?hnlb ?hcrb]
    case hnlb =>
      intro b hb
      rcases List.mem_append.mp hb with h | h
      · split at h
        · rcases List.mem_cons.mp h with h2 | h2
          · exact h2 ▸ offsetBody_no_nl offset
          · exact absurd h2 (List.not_mem_nil b)
        · exact absurd h (List.not_mem_nil _)
      · obtain ⟨l, hl, hbe⟩ := List.mem_map.mp h
        exact hbe ▸ serBody_no_nl l (hnl l hl)
    case hcrb =>
      intro b hb
      rcases List.mem_append.mp hb with h | h
      · split at h
        · rcases List.mem_cons.mp h with h2 | h2
          · subst h2
            intro c hc
            rw [show offsetBody offset =
              ("[offset:".data ++ intDigits offset) ++ [']'] by
                simp [offsetBody], List.getLast?_concat] at hc
            cases hc
            decide
          · exact absurd h2 (List.not_mem_nil _)
        · exact absurd h (List.not_mem_nil _)
      · obtain ⟨l, hl, hbe⟩ := List.mem_map.mp h
        exact hbe ▸ serBody_last_not_cr l (hcr l hl)
    by_cases hoff : offset = 0
    · simp only [hoff, ne_eq, not_true_eq_false, if_false,
        List.nil_append]
      rw [parseLrcLines_serialized lines hts htrail]
      simp [hie]
    · simp only [ne_eq, hoff, not_false_eq_true, if_true,
        List.singleton_append]
      rw [parseLrcLines_offset_skip offset]
      rw [parseLrcLines_serialized lines hts htrail]
      simp [hie]
  · intro l _
    omega

/-- C8 witness: the claim's example `[(0, "a"), (61000, "b")]`
round-trips exactly. -/
theorem C8_lrc_round_trip_witness :
    parse_lrc_content (convert_to_lrc
      ⟨[LyricsLine.mk 0 "a", LyricsLine.mk 61000 "b"], 0, "LRClib"⟩) =
      .ok [LyricsLine.mk 0 "a", LyricsLine.mk 61000 "b"] :=
  (C8_lrc_round_trip [LyricsLine.mk 0 "a", LyricsLine.mk 61000 "b"] 0
    "LRClib" (by simp) (by decide) (by decide) (by decide)
    (by decide)).1
